import Mathlib

/-!
# zmqcat: a shallow embedding of `src/zmqcat.c`

The program bridges standard input/output and one ZeroMQ socket.  Its three
functions are embedded as pure functions that return the *trace* of the calls
they make (library calls, reads, writes, allocations), oldest call first.
Everything the environment decides (the bytes on standard input, what each
`zmq_msg_recv` delivers, whether a library call succeeds) is an explicit
argument.

What the embedding fixes about the environment:

* `fread` on standard input returns the next `SEND_BUFFER_SIZE` bytes, or all
  that are left when fewer are;
* `malloc` returns a block that is not in use (the program does not test its
  result);
* the outcomes of the `zmq_msg_recv` calls are a finite list, and a call past
  its end fails, so every run that returns is covered;
* positions in the message are offsets from `zmq_msg_data(&msg)`; `total` and
  the offsets are natural numbers (a `size_t` does not wrap for any input that
  fits in memory);
* `char` is signed, so the `getopt` loop ends when `getopt` returns `-1`.

Where the source lines are embedded:

* `zmqcat_recv` : lines 16-49
* `zmqcat_send` : lines 51-118 (`readLoop` 67-78, `copyLoop` 93-102,
  `dealloc` 112-117)
* `main`        : lines 120-210 (`parseOption` is the body of the `getopt`
  loop, 129-149)
-/

namespace Zmqcat

/-- One byte of payload (`char`). -/
abbrev Byte := UInt8

/-- The value of `#define SEND_BUFFER_SIZE 8192` (line 14). -/
def SEND_BUFFER_SIZE : Nat := 8192

/-- Modelled from the spec: `zmq.h` is not part of the repository.  The six
socket kinds the program names (`-t : PUSH | PULL | REQ | REP | PUB | SUB`) are
six distinct integer constants there; they are modelled as the six values of an
enumeration. -/
inductive SocketType where
  | ZMQ_PUSH
  | ZMQ_PULL
  | ZMQ_REQ
  | ZMQ_REP
  | ZMQ_PUB
  | ZMQ_SUB
  deriving DecidableEq, Repr

open SocketType

/-- The texts the program prints with `fprintf(stderr, ...)`. -/
inductive Diag where
  /-- Text `"error %d: %s\n"` with `errno` and `zmq_strerror(errno)`. -/
  | error
  /-- Text `"receiving %ld bytes\n"` (line 45). -/
  | receiving (size : Nat)
  /-- Text `"sending %ld bytes\n"` (line 105). -/
  | sending (total : Nat)
  /-- Text `"%s to %s\n"` with `bound` or `connecting` (line 186). -/
  | attached (bind : Bool) (endpoint : String)
  /-- One of the five lines of the usage text (lines 153-157). -/
  | usage (line : Nat)
  deriving DecidableEq, Repr

/-- One observable call of the program.  A `Bool` argument `ok` is the outcome
the environment gave to the call (`true`: success). -/
inductive Event where
  /-- Call `zmq_init(1)` (line 161). -/
  | zmq_init (ok : Bool)
  /-- Call `zmq_socket(ctx, type)` (line 167). -/
  | zmq_socket (type : SocketType) (ok : Bool)
  /-- Call `zmq_bind(socket, endpoint)` (line 176). -/
  | zmq_bind (endpoint : String) (ok : Bool)
  /-- Call `zmq_connect(socket, endpoint)` (line 178). -/
  | zmq_connect (endpoint : String) (ok : Bool)
  /-- Call `zmq_msg_init(&msg)` (line 27). -/
  | zmq_msg_init (ok : Bool)
  /-- Call `zmq_msg_recv(&msg, socket, 0)` (line 35); `none` is a failed call,
  `some frame` a call that delivered `frame`. -/
  | zmq_msg_recv (frame : Option (List Byte))
  /-- Call `zmq_getsockopt(socket, ZMQ_RCVMORE, ...)` (line 41) and the flag it
  stored in `rcvmore`. -/
  | zmq_getsockopt (rcvmore : Bool)
  /-- Call `fwrite(zmq_msg_data(&msg), 1, size, stdout)` (line 47). -/
  | fwrite (data : List Byte)
  /-- Call `fread(buffer, 1, SEND_BUFFER_SIZE, stdin)` (line 68) and the bytes it
  stored. -/
  | fread (data : List Byte)
  /-- Call `malloc(SEND_BUFFER_SIZE + sizeof(char *))` (line 74) and the chunk it
  returned. -/
  | malloc (addr : Nat)
  /-- Call `zmq_msg_init_size(&msg, total)` (line 83). -/
  | zmq_msg_init_size (total : Nat) (ok : Bool)
  /-- Call `memcpy(msg_at, buffer, chunk_size)` (line 98): the offset of `msg_at`
  in the message, the chunk read from and `chunk_size`. -/
  | memcpy (msg_at : Nat) (buffer : Nat) (chunk_size : Nat)
  /-- Call `zmq_msg_send(&msg, socket, 0)` (line 107) and the content of `msg`. -/
  | zmq_msg_send (msg : List Byte) (ok : Bool)
  /-- Call `free(tbuf)` (line 116). -/
  | free (addr : Nat)
  /-- Call `zmq_close(socket)` (line 197). -/
  | zmq_close (ok : Bool)
  /-- Call `zmq_term(ctx)` (line 203). -/
  | zmq_term (ok : Bool)
  /-- Call `fprintf(stderr, ...)`. -/
  | fprintf_stderr (text : Diag)
  deriving DecidableEq, Repr

/-! ## `zmqcat_recv` -/

/-- What one call of `zmq_msg_recv` gives: a failure, or a frame together with
the more-frames flag that the following `zmq_getsockopt` reports. -/
inductive RecvOutcome where
  | fail
  | frame (data : List Byte) (rcvmore : Bool)
  deriving DecidableEq, Repr

/-- The `do ... while (rcvmore)` loop of `zmqcat_recv` (lines 34-48), run
against the outcomes of the successive `zmq_msg_recv` calls.  A call for which
no outcome is listed fails. -/
def recvLoop (verbose : Bool) : List RecvOutcome → List Event
  | [] => [.zmq_msg_recv none, .fprintf_stderr .error]
  | .fail :: _ => [.zmq_msg_recv none, .fprintf_stderr .error]
  | .frame data rcvmore :: rest =>
    [.zmq_msg_recv (some data), .zmq_getsockopt rcvmore]
      ++ (if verbose then [.fprintf_stderr (.receiving data.length)] else [])
      ++ [.fwrite data]
      ++ (if rcvmore then recvLoop verbose rest else [])

/-- Function `zmqcat_recv(socket, type, verbose)` (lines 16-49).  `msgInitOk` is the
outcome of `zmq_msg_init`, `incoming` the outcomes of the `zmq_msg_recv`
calls. -/
def zmqcat_recv (msgInitOk : Bool) (incoming : List RecvOutcome)
    (type : SocketType) (verbose : Bool) : List Event :=
  if type = ZMQ_PUSH ∨ type = ZMQ_PUB then []
  else if !msgInitOk then [.zmq_msg_init false, .fprintf_stderr .error]
  else .zmq_msg_init true :: recvLoop verbose incoming

/-! ## `zmqcat_send` -/

/-- One chunk of the forward linked buffer: `SEND_BUFFER_SIZE` bytes of data
followed by the pointer to the next chunk.  The chain is represented by the
list of its chunks in link order, so the pointer is implicit; `addr` names the
block (`0` for `stack_buffer`, `n` for the block the `n`-th `malloc`
returned) and `data` holds the bytes `fread` stored at its start. -/
structure Chunk where
  addr : Nat
  data : List Byte
  deriving DecidableEq, Repr

/-- The address of `stack_buffer`. -/
def stack_buffer : Nat := 0

/-- State at the `break` of the read loop. -/
structure ReadResult where
  /-- The chain from `buffer` on. -/
  chain : List Chunk
  /-- What the loop added to `total`. -/
  total : Nat
  /-- The calls made. -/
  trace : List Event
  deriving DecidableEq, Repr

/-- The `while (1)` loop of `zmqcat_send` (lines 67-78), entered with `buffer`
pointing to the block `buffer` and `stdin` still unread.  `fread` gives the
next `SEND_BUFFER_SIZE` bytes, or all that are left when fewer are; `malloc`
returns a block that is not in use (the next unused address). -/
def readLoop (buffer : Nat) (stdin : List Byte) : ReadResult :=
  if h : (stdin.take SEND_BUFFER_SIZE).length ≠ SEND_BUFFER_SIZE then
    let read := stdin.take SEND_BUFFER_SIZE
    { chain := [⟨buffer, read⟩], total := read.length, trace := [.fread read] }
  else
    let read := stdin.take SEND_BUFFER_SIZE
    let new_buffer := buffer + 1
    let r := readLoop new_buffer (stdin.drop SEND_BUFFER_SIZE)
    { chain := ⟨buffer, read⟩ :: r.chain
      total := read.length + r.total
      trace := .fread read :: .malloc new_buffer :: r.trace }
termination_by stdin.length
decreasing_by
  simp only [SEND_BUFFER_SIZE, List.length_take, List.length_drop, ne_eq, not_not] at h ⊢
  omega

/-- The effect of `memcpy(msg + msg_at, src, src.length)` on the message
buffer `msg`. -/
def memcpy (msg : List Byte) (msg_at : Nat) (src : List Byte) : List Byte :=
  msg.take msg_at ++ src ++ msg.drop (msg_at + src.length)

/-- The copy loop of `zmqcat_send` (lines 93-102) over the chain from `buffer`
on; `msg_at` and `msg_end` are offsets from the start of the message data.
Returns the message buffer after the loop and the `memcpy` calls made.  The
bytes copied from a chunk are the first `chunk_size` bytes `fread` stored
there. -/
def copyLoop (msg_end : Nat) : List Chunk → Nat → List Byte → List Byte × List Event
  | [], _, msg => (msg, [])
  | buffer :: next, msg_at, msg =>
    let chunk_size :=
      if msg_at + SEND_BUFFER_SIZE ≥ msg_end then msg_end - msg_at else SEND_BUFFER_SIZE
    let r := copyLoop msg_end next (msg_at + chunk_size)
      (memcpy msg msg_at (buffer.data.take chunk_size))
    (r.1, .memcpy msg_at buffer.addr chunk_size :: r.2)

/-- The `dealloc:` loop (lines 112-117): starting from the link stored in
`stack_buffer`, free every chunk of the chain. -/
def dealloc (chain : List Chunk) : List Event :=
  chain.tail.map fun tbuf => .free tbuf.addr

/-- Function `zmqcat_send(socket, type, verbose)` (lines 51-118).  `msgInitSizeOk` and
`sendOk` are the outcomes of `zmq_msg_init_size` and `zmq_msg_send`; `stdin`
is what standard input still holds.  `zmq_msg_init_size` gives a buffer of
`total` bytes whose content is not defined; it is modelled as zero bytes. -/
def zmqcat_send (msgInitSizeOk sendOk : Bool) (stdin : List Byte)
    (type : SocketType) (verbose : Bool) : List Event :=
  if type = ZMQ_PULL ∨ type = ZMQ_SUB then []
  else
    let r := readLoop stack_buffer stdin
    let total := r.total
    if !msgInitSizeOk then
      r.trace ++ [.zmq_msg_init_size total false, .fprintf_stderr .error] ++ dealloc r.chain
    else
      let c := copyLoop total r.chain 0 (List.replicate total 0)
      r.trace ++ [.zmq_msg_init_size total true] ++ c.2
        ++ (if verbose then [.fprintf_stderr (.sending total)] else [])
        ++ [.zmq_msg_send c.1 sendOk]
        ++ (if !sendOk then [.fprintf_stderr .error] else [])
        ++ dealloc r.chain

/-! ## `main` -/

/-- One return of `getopt(argc, argv, "t:e:bv")`: the option character and
`optarg`. -/
structure GetoptResult where
  c : Char
  optarg : String
  deriving DecidableEq, Repr

/-- Function `strcasecmp(s1, s2)`: `0` when the strings are equal up to the case of
ASCII letters; the sign of a non-zero result is not used by the program. -/
def strcasecmp (s1 s2 : String) : Int :=
  if s1.data.map Char.toLower = s2.data.map Char.toLower then 0 else 1

/-- The locals `type`, `endpoint`, `bind`, `verbose` of `main`. -/
structure Options where
  type : SocketType
  endpoint : Option String
  bind : Bool
  verbose : Bool
  deriving DecidableEq, Repr

/-- The initial values of the locals (lines 122-125). -/
def Options.init : Options :=
  { type := ZMQ_PUSH, endpoint := none, bind := false, verbose := false }

/-- The body of the `getopt` loop (lines 129-149). -/
def parseOption (o : Options) (g : GetoptResult) : Options :=
  if g.c = 't' then
    if strcasecmp g.optarg "pull" = 0 then { o with type := ZMQ_PULL }
    else if strcasecmp g.optarg "req" = 0 then { o with type := ZMQ_REQ }
    else if strcasecmp g.optarg "rep" = 0 then { o with type := ZMQ_REP }
    else if strcasecmp g.optarg "pub" = 0 then { o with type := ZMQ_PUB }
    else if strcasecmp g.optarg "sub" = 0 then { o with type := ZMQ_PUB }
    else o
  else if g.c = 'e' then { o with endpoint := some g.optarg }
  else if g.c = 'b' then { o with bind := true }
  else if g.c = 'v' then { o with verbose := true }
  else o

/-- The `getopt` loop (lines 128-150) over the successive returns of `getopt`
before it returns `-1`. -/
def parseOptions (opts : List GetoptResult) : Options :=
  opts.foldl parseOption Options.init

/-- What the environment decides in one run of the program. -/
structure World where
  /-- The bytes on standard input. -/
  stdin : List Byte
  /-- The outcomes of the successive `zmq_msg_recv` calls. -/
  incoming : List RecvOutcome
  zmq_init_ok : Bool
  zmq_socket_ok : Bool
  zmq_bind_ok : Bool
  zmq_connect_ok : Bool
  zmq_msg_init_ok : Bool
  zmq_msg_init_size_ok : Bool
  zmq_msg_send_ok : Bool
  zmq_close_ok : Bool
  zmq_term_ok : Bool
  deriving DecidableEq, Repr

/-- A finished run: the value `main` returns and the calls made. -/
structure Run where
  status : Int
  trace : List Event
  deriving DecidableEq, Repr

/-- The usage text (lines 153-157). -/
def usage : List Event :=
  [.fprintf_stderr (.usage 0), .fprintf_stderr (.usage 1), .fprintf_stderr (.usage 2),
   .fprintf_stderr (.usage 3), .fprintf_stderr (.usage 4)]

/-- Lines 188-195: the order of the two transfers. -/
def transfer (w : World) (type : SocketType) (verbose : Bool) : List Event :=
  if type = ZMQ_REP then
    zmqcat_recv w.zmq_msg_init_ok w.incoming type verbose
      ++ zmqcat_send w.zmq_msg_init_size_ok w.zmq_msg_send_ok w.stdin type verbose
  else
    zmqcat_send w.zmq_msg_init_size_ok w.zmq_msg_send_ok w.stdin type verbose
      ++ zmqcat_recv w.zmq_msg_init_ok w.incoming type verbose

/-- Function `main(argc, argv)` (lines 120-210); `opts` are the returns of `getopt` for
the argument vector. -/
def main (opts : List GetoptResult) (w : World) : Run :=
  let o := parseOptions opts
  match o.endpoint with
  | none => { status := 254, trace := usage }
  | some endpoint =>
    let t0 : List Event := [.zmq_init w.zmq_init_ok]
    if !w.zmq_init_ok then { status := 1, trace := t0 ++ [.fprintf_stderr .error] }
    else
      let t1 := t0 ++ [.zmq_socket o.type w.zmq_socket_ok]
      if !w.zmq_socket_ok then { status := 1, trace := t1 ++ [.fprintf_stderr .error] }
      else
        let ok := if o.bind then w.zmq_bind_ok else w.zmq_connect_ok
        let t2 := t1 ++ [if o.bind then .zmq_bind endpoint ok else .zmq_connect endpoint ok]
        if !ok then { status := 1, trace := t2 ++ [.fprintf_stderr .error] }
        else
          let t3 := t2
            ++ (if o.verbose then [.fprintf_stderr (.attached o.bind endpoint)] else [])
            ++ transfer w o.type o.verbose
          let t4 := t3 ++ [.zmq_close w.zmq_close_ok]
          if !w.zmq_close_ok then { status := 1, trace := t4 ++ [.fprintf_stderr .error] }
          else
            let t5 := t4 ++ [.zmq_term w.zmq_term_ok]
            if !w.zmq_term_ok then { status := 1, trace := t5 ++ [.fprintf_stderr .error] }
            else { status := 0, trace := t5 }

/-! ## Observations on traces -/

/-- The message and outcome of a `zmq_msg_send` call. -/
def Event.sentMsg : Event → Option (List Byte × Bool)
  | .zmq_msg_send msg ok => some (msg, ok)
  | _ => none

/-- The size and outcome of a `zmq_msg_init_size` call. -/
def Event.initSize : Event → Option (Nat × Bool)
  | .zmq_msg_init_size total ok => some (total, ok)
  | _ => none

/-- The bytes an `fread` call stored. -/
def Event.readData : Event → Option (List Byte)
  | .fread data => some data
  | _ => none

/-- The bytes an `fwrite` call wrote. -/
def Event.writtenData : Event → Option (List Byte)
  | .fwrite data => some data
  | _ => none

/-- What a `zmq_msg_recv` call gave: `some frame`, or `none` for a failure. -/
def Event.recvResult : Event → Option (Option (List Byte))
  | .zmq_msg_recv frame => some frame
  | _ => none

/-- The block a `malloc` call returned. -/
def Event.mallocAddr : Event → Option Nat
  | .malloc addr => some addr
  | _ => none

/-- The block passed to a `free` call. -/
def Event.freeAddr : Event → Option Nat
  | .free addr => some addr
  | _ => none

/-- The messages handed to `zmq_msg_send`, each with the outcome of the call,
in call order. -/
def sent (t : List Event) : List (List Byte × Bool) := t.filterMap Event.sentMsg

/-- The sizes passed to `zmq_msg_init_size`, each with the outcome of the
call. -/
def initSizes (t : List Event) : List (Nat × Bool) := t.filterMap Event.initSize

/-- The results of the `zmq_msg_recv` calls, in call order. -/
def received (t : List Event) : List (Option (List Byte)) := t.filterMap Event.recvResult

/-- The byte sequences passed to `fwrite`, in call order. -/
def written (t : List Event) : List (List Byte) := t.filterMap Event.writtenData

/-- All bytes written to standard output. -/
def stdoutOf (t : List Event) : List Byte := (written t).flatten

/-- All bytes taken from standard input. -/
def stdinRead (t : List Event) : List Byte := (t.filterMap Event.readData).flatten

/-- The blocks returned by `malloc`, in call order. -/
def mallocs (t : List Event) : List Nat := t.filterMap Event.mallocAddr

/-- The blocks passed to `free`, in call order. -/
def frees (t : List Event) : List Nat := t.filterMap Event.freeAddr

/-- The heap chunks that are live after the calls of a trace, when `live` are
live before it: `malloc` adds its block, `free` removes its block.  The result
is `none` when a block is passed to `free` that is not a live heap chunk. -/
def heapAfter : List Event → List Nat → Option (List Nat)
  | [], live => some live
  | .malloc addr :: t, live => heapAfter t (live ++ [addr])
  | .free addr :: t, live => if addr ∈ live then heapAfter t (live.erase addr) else none
  | _ :: t, live => heapAfter t live

/-- A `zmq_msg_recv` call. -/
def Event.isRecv : Event → Bool
  | .zmq_msg_recv _ => true
  | _ => false

/-- A `zmq_msg_send` call. -/
def Event.isSend : Event → Bool
  | .zmq_msg_send _ _ => true
  | _ => false

/-- A `zmq_msg_recv` call that failed. -/
def Event.isFailedRecv : Event → Bool
  | .zmq_msg_recv none => true
  | _ => false

/-- A `zmq_msg_send` call that failed. -/
def Event.isFailedSend : Event → Bool
  | .zmq_msg_send _ false => true
  | _ => false

/-- A read of standard input. -/
def Event.isFread : Event → Bool
  | .fread _ => true
  | _ => false

/-- A write to standard output. -/
def Event.isFwrite : Event → Bool
  | .fwrite _ => true
  | _ => false

/-- A call into the transport library (any `zmq_*` function). -/
def Event.isTransportCall : Event → Bool
  | .zmq_init _ | .zmq_socket _ _ | .zmq_bind _ _ | .zmq_connect _ _ | .zmq_msg_init _
  | .zmq_msg_recv _ | .zmq_getsockopt _ | .zmq_msg_init_size _ _ | .zmq_msg_send _ _
  | .zmq_close _ | .zmq_term _ => true
  | _ => false

/-- A failed call among those `main` makes itself: context or socket creation,
bind or connect, close, terminate. -/
def Event.isLifecycleFailure : Event → Bool
  | .zmq_init false | .zmq_socket _ false | .zmq_bind _ false | .zmq_connect _ false
  | .zmq_close false | .zmq_term false => true
  | _ => false

/-- A failed transport operation of any kind named by the specification:
context or socket creation, bind or connect, send, receive, close,
terminate. -/
def Event.isTransportFailure (e : Event) : Bool :=
  e.isLifecycleFailure || e.isFailedSend || e.isFailedRecv

/-- In the trace `t`, no call satisfying `p` is followed, later in the trace,
by a call satisfying `q`. -/
def NeverFollowedBy (p q : Event → Bool) (t : List Event) : Prop :=
  t.Pairwise fun x y => ¬ (p x = true ∧ q y = true)

instance (p q : Event → Bool) (t : List Event) : Decidable (NeverFollowedBy p q t) := by
  unfold NeverFollowedBy; infer_instance

/-- The calls the read loop makes. -/
def Event.isReadLoopCall : Event → Bool
  | .fread _ | .malloc _ => true
  | _ => false

/-- A `memcpy` call. -/
def Event.isMemcpy : Event → Bool
  | .memcpy _ _ _ => true
  | _ => false

/-- A `free` call. -/
def Event.isFree : Event → Bool
  | .free _ => true
  | _ => false

/-- The calls `zmqcat_send` can make. -/
def Event.isSendSide : Event → Bool
  | .fread _ | .malloc _ | .zmq_msg_init_size _ _ | .memcpy _ _ _ | .zmq_msg_send _ _
  | .free _ | .fprintf_stderr _ => true
  | _ => false

/-- The calls `zmqcat_recv` can make. -/
def Event.isRecvSide : Event → Bool
  | .zmq_msg_init _ | .zmq_msg_recv _ | .zmq_getsockopt _ | .fwrite _
  | .fprintf_stderr _ => true
  | _ => false

/-- The calls `main` makes itself. -/
def Event.isLifecycle : Event → Bool
  | .zmq_init _ | .zmq_socket _ _ | .zmq_bind _ _ | .zmq_connect _ _
  | .zmq_close _ | .zmq_term _ | .fprintf_stderr _ => true
  | _ => false

/-! ## Concrete inputs -/

/-- The five bytes of `hello`. -/
def hello : List Byte := [104, 101, 108, 108, 111]

/-- A run in which every library call succeeds, with `stdin` on standard input
and `incoming` delivered by the socket. -/
def World.allOk (stdin : List Byte) (incoming : List RecvOutcome) : World :=
  { stdin := stdin, incoming := incoming, zmq_init_ok := true, zmq_socket_ok := true,
    zmq_bind_ok := true, zmq_connect_ok := true, zmq_msg_init_ok := true,
    zmq_msg_init_size_ok := true, zmq_msg_send_ok := true, zmq_close_ok := true,
    zmq_term_ok := true }

/-- What `getopt` returns for `zmqcat -t sub -e tcp://127.0.0.1:5000`. -/
def subOpts : List GetoptResult := [⟨'t', "sub"⟩, ⟨'e', "tcp://127.0.0.1:5000"⟩]

/-- What `getopt` returns for `zmqcat -t REP -e tcp://127.0.0.1:5000 -b`. -/
def repOpts : List GetoptResult := [⟨'t', "REP"⟩, ⟨'e', "tcp://127.0.0.1:5000"⟩, ⟨'b', ""⟩]

/-- What `getopt` returns for `zmqcat -t req -e tcp://127.0.0.1:5000`. -/
def reqOpts : List GetoptResult := [⟨'t', "req"⟩, ⟨'e', "tcp://127.0.0.1:5000"⟩]

/-- What `getopt` returns for `zmqcat -e tcp://127.0.0.1:5000`. -/
def pushOpts : List GetoptResult := [⟨'e', "tcp://127.0.0.1:5000"⟩]

/-- What `getopt` returns for `zmqcat -t pull -v`: no endpoint. -/
def noEndpointOpts : List GetoptResult := [⟨'t', "pull"⟩, ⟨'v', ""⟩]

/-- A run in which `zmq_msg_send` fails and every other call succeeds; standard
input is empty and the socket delivers one frame. -/
def sendFails : World := { World.allOk [] [.frame hello false] with zmq_msg_send_ok := false }

/-- A run in which the first `zmq_msg_recv` fails and every other call
succeeds; standard input holds `hello`. -/
def recvFails : World := World.allOk hello [.fail]

/-- Standard input that holds exactly `SEND_BUFFER_SIZE` bytes. -/
def oneFullChunk : List Byte := List.replicate SEND_BUFFER_SIZE 0

/-! ## Lemmas: the read loop -/

theorem readLoop_short (buffer : Nat) (stdin : List Byte) (h : stdin.length < SEND_BUFFER_SIZE) :
    readLoop buffer stdin =
      { chain := [⟨buffer, stdin⟩], total := stdin.length, trace := [.fread stdin] } := by
  have h1 : stdin.take SEND_BUFFER_SIZE = stdin := List.take_of_length_le (Nat.le_of_lt h)
  rw [readLoop]
  simp [h1, Nat.ne_of_lt h]

theorem readLoop_full (buffer : Nat) (stdin : List Byte) (h : SEND_BUFFER_SIZE ≤ stdin.length) :
    readLoop buffer stdin =
      { chain := ⟨buffer, stdin.take SEND_BUFFER_SIZE⟩
          :: (readLoop (buffer + 1) (stdin.drop SEND_BUFFER_SIZE)).chain
        total := SEND_BUFFER_SIZE + (readLoop (buffer + 1) (stdin.drop SEND_BUFFER_SIZE)).total
        trace := .fread (stdin.take SEND_BUFFER_SIZE) :: .malloc (buffer + 1)
          :: (readLoop (buffer + 1) (stdin.drop SEND_BUFFER_SIZE)).trace } := by
  have h1 : (stdin.take SEND_BUFFER_SIZE).length = SEND_BUFFER_SIZE := by
    simp [List.length_take, h]
  rw [readLoop]
  simp [h1]

/-- Induction over standard input in steps of one full read. -/
theorem stdin_induction {motive : List Byte → Prop}
    (short : ∀ stdin, stdin.length < SEND_BUFFER_SIZE → motive stdin)
    (full : ∀ stdin, SEND_BUFFER_SIZE ≤ stdin.length →
      motive (stdin.drop SEND_BUFFER_SIZE) → motive stdin)
    (stdin : List Byte) : motive stdin := by
  obtain ⟨n, hn⟩ : ∃ n, stdin.length = n := ⟨_, rfl⟩
  induction n using Nat.strong_induction_on generalizing stdin with
  | _ n ih =>
    by_cases hs : stdin.length < SEND_BUFFER_SIZE
    · exact short stdin hs
    · have hf : SEND_BUFFER_SIZE ≤ stdin.length := Nat.le_of_not_lt hs
      refine full stdin hf (ih (stdin.drop SEND_BUFFER_SIZE).length ?_ _ rfl)
      simp only [SEND_BUFFER_SIZE, List.length_drop] at hf ⊢
      omega

theorem readLoop_total (stdin : List Byte) :
    ∀ buffer, (readLoop buffer stdin).total = stdin.length := by
  induction stdin using stdin_induction with
  | short stdin h => intro b; simp [readLoop_short b stdin h]
  | full stdin h ih =>
    intro b
    simp only [readLoop_full b stdin h, ih, List.length_drop]
    omega

theorem readLoop_chain_length (stdin : List Byte) :
    ∀ buffer, (readLoop buffer stdin).chain.length = stdin.length / SEND_BUFFER_SIZE + 1 := by
  induction stdin using stdin_induction with
  | short stdin h => intro b; simp [readLoop_short b stdin h, Nat.div_eq_of_lt h]
  | full stdin h ih =>
    intro b
    simp only [readLoop_full b stdin h, ih, List.length_drop, List.length_cons]
    have : stdin.length / SEND_BUFFER_SIZE
        = (stdin.length - SEND_BUFFER_SIZE) / SEND_BUFFER_SIZE + 1 := by
      simp only [SEND_BUFFER_SIZE] at h ⊢
      omega
    omega

theorem readLoop_chain_addr (stdin : List Byte) :
    ∀ buffer, (readLoop buffer stdin).chain.map Chunk.addr
      = List.range' buffer (stdin.length / SEND_BUFFER_SIZE + 1) := by
  induction stdin using stdin_induction with
  | short stdin h => intro b; simp [readLoop_short b stdin h, Nat.div_eq_of_lt h]
  | full stdin h ih =>
    intro b
    have : stdin.length / SEND_BUFFER_SIZE
        = (stdin.length - SEND_BUFFER_SIZE) / SEND_BUFFER_SIZE + 1 := by
      simp only [SEND_BUFFER_SIZE] at h ⊢
      omega
    simp only [readLoop_full b stdin h, ih, List.length_drop, List.map_cons, this]
    rw [List.range'_succ b]

theorem readLoop_mallocs (stdin : List Byte) :
    ∀ buffer, mallocs (readLoop buffer stdin).trace
      = List.range' (buffer + 1) (stdin.length / SEND_BUFFER_SIZE) := by
  induction stdin using stdin_induction with
  | short stdin h => intro b; simp [readLoop_short b stdin h, Nat.div_eq_of_lt h, mallocs, Event.mallocAddr]
  | full stdin h ih =>
    intro b
    have : stdin.length / SEND_BUFFER_SIZE
        = (stdin.length - SEND_BUFFER_SIZE) / SEND_BUFFER_SIZE + 1 := by
      simp only [SEND_BUFFER_SIZE] at h ⊢
      omega
    have ih' := ih (b + 1)
    simp only [mallocs, List.length_drop] at ih'
    simp only [readLoop_full b stdin h, mallocs, this, List.filterMap_cons, Event.mallocAddr, ih']
    rw [List.range'_succ (b + 1)]

theorem readLoop_stdinRead (stdin : List Byte) :
    ∀ buffer, stdinRead (readLoop buffer stdin).trace = stdin := by
  induction stdin using stdin_induction with
  | short stdin h => intro b; simp [readLoop_short b stdin h, stdinRead, Event.readData]
  | full stdin h ih =>
    intro b
    have ih' := ih (b + 1)
    simp only [stdinRead] at ih'
    simp only [readLoop_full b stdin h, stdinRead, List.filterMap_cons, Event.readData,
      List.flatten_cons, ih', List.take_append_drop]


/-! ## Lemmas: the copy loop -/

theorem memcpy_length (msg : List Byte) (msg_at : Nat) (src : List Byte)
    (h : msg_at + src.length ≤ msg.length) : (memcpy msg msg_at src).length = msg.length := by
  simp only [memcpy, List.length_append, List.length_take, List.length_drop]
  omega

theorem memcpy_take (msg : List Byte) (msg_at : Nat) (src : List Byte)
    (h : msg_at + src.length ≤ msg.length) :
    (memcpy msg msg_at src).take (msg_at + src.length) = msg.take msg_at ++ src := by
  have h1 : (msg.take msg_at ++ src).length = msg_at + src.length := by
    simp only [List.length_append, List.length_take]
    omega
  rw [memcpy, ← h1, List.take_left]

/-- The copy loop run over the chain the read loop built from `stdin`, with
`msg_at` at the place of the first byte and `msg_end` right behind the last,
stores `stdin` there and leaves what precedes `msg_at` as it was. -/
theorem copyLoop_readLoop (stdin : List Byte) :
    ∀ (buffer msg_at : Nat) (msg : List Byte), msg.length = msg_at + stdin.length →
      (copyLoop (msg_at + stdin.length) (readLoop buffer stdin).chain msg_at msg).1
        = msg.take msg_at ++ stdin := by
  induction stdin using stdin_induction with
  | short stdin h =>
    intro b msg_at msg hlen
    have h1 : msg_at + SEND_BUFFER_SIZE ≥ msg_at + stdin.length := by omega
    simp only [readLoop_short b stdin h, copyLoop, h1, if_true, Nat.add_sub_cancel_left,
      List.take_length, memcpy, hlen]
    rw [← hlen, List.drop_length, List.append_nil]
  | full stdin h ih =>
    intro b msg_at msg hlen
    have hA : (stdin.take SEND_BUFFER_SIZE).length = SEND_BUFFER_SIZE := by
      simp [List.length_take, h]
    have hB : (stdin.drop SEND_BUFFER_SIZE).length = stdin.length - SEND_BUFFER_SIZE := by
      simp
    have hsize : (if msg_at + SEND_BUFFER_SIZE ≥ msg_at + stdin.length
        then msg_at + stdin.length - msg_at else SEND_BUFFER_SIZE) = SEND_BUFFER_SIZE := by
      split <;> omega
    have hend : msg_at + stdin.length
        = (msg_at + SEND_BUFFER_SIZE) + (stdin.drop SEND_BUFFER_SIZE).length := by
      rw [hB]; omega
    have hsrc : (stdin.take SEND_BUFFER_SIZE).take SEND_BUFFER_SIZE
        = stdin.take SEND_BUFFER_SIZE := by
      rw [List.take_take, Nat.min_self]
    have hfit : msg_at + (stdin.take SEND_BUFFER_SIZE).length ≤ msg.length := by
      rw [hA, hlen]; omega
    simp only [readLoop_full b stdin h, copyLoop, hsize, hsrc]
    rw [hend, ih (b + 1) (msg_at + SEND_BUFFER_SIZE) _
      (by rw [memcpy_length _ _ _ hfit, hlen, hB]; omega)]
    have := memcpy_take msg msg_at (stdin.take SEND_BUFFER_SIZE) hfit
    rw [hA] at this
    rw [this, List.append_assoc, List.take_append_drop]

theorem copyLoop_events (msg_end : Nat) (chain : List Chunk) :
    ∀ (msg_at : Nat) (msg : List Byte) (e : Event),
      e ∈ (copyLoop msg_end chain msg_at msg).2 → ∃ a b c, e = .memcpy a b c := by
  induction chain with
  | nil => intro _ _ e he; simp [copyLoop] at he
  | cons buffer next ih =>
    intro msg_at msg e he
    simp only [copyLoop, List.mem_cons] at he
    rcases he with rfl | he
    · exact ⟨_, _, _, rfl⟩
    · exact ih _ _ e he


/-! ## Lemmas: `zmqcat_send` -/

theorem filterMap_eq_nil_of {α : Type} (f : Event → Option α) (P : Event → Bool)
    (l : List Event) (hl : ∀ e ∈ l, P e = true) (hf : ∀ e, P e = true → f e = none) :
    l.filterMap f = [] :=
  List.filterMap_eq_nil_iff.2 fun e he => hf e (hl e he)

theorem readLoop_events (stdin : List Byte) :
    ∀ buffer, ∀ e ∈ (readLoop buffer stdin).trace, e.isReadLoopCall = true := by
  induction stdin using stdin_induction with
  | short stdin h => intro b e he; simp [readLoop_short b stdin h] at he; simp [he, Event.isReadLoopCall]
  | full stdin h ih =>
    intro b e he
    simp only [readLoop_full b stdin h, List.mem_cons] at he
    rcases he with rfl | rfl | he
    · rfl
    · rfl
    · exact ih _ e he

theorem copyLoop_isMemcpy (msg_end : Nat) (chain : List Chunk) (msg_at : Nat) (msg : List Byte) :
    ∀ e ∈ (copyLoop msg_end chain msg_at msg).2, e.isMemcpy = true := by
  intro e he
  obtain ⟨a, b, c, rfl⟩ := copyLoop_events msg_end chain msg_at msg e he
  rfl

theorem dealloc_isFree (chain : List Chunk) : ∀ e ∈ dealloc chain, e.isFree = true := by
  intro e he
  simp only [dealloc, List.mem_map] at he
  obtain ⟨c, _, rfl⟩ := he
  rfl

theorem frees_dealloc (chain : List Chunk) :
    frees (dealloc chain) = (chain.map Chunk.addr).tail := by
  have h : ∀ l : List Chunk,
      (l.map fun tbuf => Event.free tbuf.addr).filterMap Event.freeAddr = l.map Chunk.addr := by
    intro l
    induction l with
    | nil => rfl
    | cons c t ih => simp [List.filterMap_cons, Event.freeAddr, ih]
  rw [frees, dealloc, h, List.map_tail]

/-- The message that `zmqcat_send` has built when the copy loop ends is
standard input. -/
theorem copyLoop_message (stdin : List Byte) :
    (copyLoop (readLoop stack_buffer stdin).total (readLoop stack_buffer stdin).chain 0
      (List.replicate (readLoop stack_buffer stdin).total 0)).1 = stdin := by
  have h := copyLoop_readLoop stdin stack_buffer 0 (List.replicate stdin.length 0) (by simp)
  simp only [Nat.zero_add, List.take_zero, List.nil_append] at h
  rw [readLoop_total, h]

/-- The trace of `zmqcat_send` for a socket type that sends. -/
theorem zmqcat_send_trace (msgInitSizeOk sendOk : Bool) (stdin : List Byte)
    (type : SocketType) (verbose : Bool) (h1 : type ≠ ZMQ_PULL) (h2 : type ≠ ZMQ_SUB) :
    zmqcat_send msgInitSizeOk sendOk stdin type verbose =
      (readLoop stack_buffer stdin).trace
        ++ (if msgInitSizeOk then
              [Event.zmq_msg_init_size stdin.length true]
                ++ (copyLoop stdin.length (readLoop stack_buffer stdin).chain 0
                      (List.replicate stdin.length 0)).2
                ++ (if verbose then [Event.fprintf_stderr (.sending stdin.length)] else [])
                ++ [Event.zmq_msg_send stdin sendOk]
                ++ (if sendOk then [] else [Event.fprintf_stderr .error])
            else [Event.zmq_msg_init_size stdin.length false, Event.fprintf_stderr .error])
        ++ dealloc (readLoop stack_buffer stdin).chain := by
  have hm := copyLoop_message stdin
  rw [readLoop_total] at hm
  cases msgInitSizeOk <;> cases sendOk <;>
    simp [zmqcat_send, h1, h2, readLoop_total, hm]


theorem readLoop_chain_data_length (stdin : List Byte) :
    ∀ buffer, (readLoop buffer stdin).chain.map (fun c => c.data.length)
      = List.replicate (stdin.length / SEND_BUFFER_SIZE) SEND_BUFFER_SIZE
          ++ [stdin.length % SEND_BUFFER_SIZE] := by
  induction stdin using stdin_induction with
  | short stdin h =>
    intro b
    simp [readLoop_short b stdin h, Nat.div_eq_of_lt h, Nat.mod_eq_of_lt h]
  | full stdin h ih =>
    intro b
    have hlen : stdin.length = (stdin.drop SEND_BUFFER_SIZE).length + SEND_BUFFER_SIZE := by
      rw [List.length_drop]
      omega
    have hd : stdin.length / SEND_BUFFER_SIZE
        = (stdin.drop SEND_BUFFER_SIZE).length / SEND_BUFFER_SIZE + 1 := by
      rw [hlen, Nat.add_div_right _ (by decide)]
    have hm : stdin.length % SEND_BUFFER_SIZE
        = (stdin.drop SEND_BUFFER_SIZE).length % SEND_BUFFER_SIZE := by
      rw [hlen, Nat.add_mod_right]
    have hA : (stdin.take SEND_BUFFER_SIZE).length = SEND_BUFFER_SIZE := by
      simp [List.length_take, h]
    simp only [readLoop_full b stdin h, List.map_cons, ih, hA]
    rw [hd, hm]
    rfl

theorem heapAfter_append (a b : List Event) :
    ∀ live, heapAfter (a ++ b) live = (heapAfter a live).bind (heapAfter b) := by
  induction a with
  | nil => intro live; rfl
  | cons e a ih =>
    intro live
    cases e with
    | free addr =>
      by_cases hm : addr ∈ live
      · simp [heapAfter, hm, ih]
      · simp [heapAfter, hm]
    | _ => simp [heapAfter, ih]

theorem heapAfter_no_free (a : List Event) (h : ∀ e ∈ a, e.isFree = false) :
    ∀ live, heapAfter a live = some (live ++ mallocs a) := by
  induction a with
  | nil => intro live; simp [heapAfter, mallocs]
  | cons e a ih =>
    intro live
    have ih' := ih (fun x hx => h x (List.mem_cons_of_mem _ hx))
    have he := h e (List.mem_cons_self _ _)
    simp only [mallocs] at ih' ⊢
    cases e <;>
      simp [Event.isFree] at he <;>
      simp [heapAfter, ih', List.filterMap_cons, Event.mallocAddr]

theorem heapAfter_frees (l : List Nat) :
    heapAfter (l.map Event.free) l = some [] := by
  induction l with
  | nil => rfl
  | cons a l ih => simp [heapAfter, ih]


/-! ## Lemmas: `zmqcat_recv` -/

theorem recvLoop_events (verbose : Bool) (incoming : List RecvOutcome) :
    ∀ e ∈ recvLoop verbose incoming, e.isRecvSide = true := by
  induction incoming with
  | nil => intro e he; simp [recvLoop] at he; rcases he with rfl | rfl <;> rfl
  | cons o rest ih =>
    intro e he
    cases o with
    | fail => simp [recvLoop] at he; rcases he with rfl | rfl <;> rfl
    | frame data rcvmore =>
      simp only [recvLoop, List.mem_append, List.mem_cons, List.mem_singleton,
        List.not_mem_nil, or_false] at he
      rcases he with (((rfl | rfl) | he) | rfl) | he
      · rfl
      · rfl
      · cases verbose <;> simp at he
        subst he; rfl
      · rfl
      · cases rcvmore <;> simp at he
        exact ih e he

theorem zmqcat_recv_events (msgInitOk : Bool) (incoming : List RecvOutcome)
    (type : SocketType) (verbose : Bool) :
    ∀ e ∈ zmqcat_recv msgInitOk incoming type verbose, e.isRecvSide = true := by
  intro e he
  unfold zmqcat_recv at he
  split at he
  · simp at he
  · split at he
    · simp at he; rcases he with rfl | rfl <;> rfl
    · simp only [List.mem_cons] at he
      rcases he with rfl | he
      · rfl
      · exact recvLoop_events verbose incoming e he

theorem zmqcat_recv_trace (msgInitOk : Bool) (incoming : List RecvOutcome)
    (type : SocketType) (verbose : Bool) (h1 : type ≠ ZMQ_PUSH) (h2 : type ≠ ZMQ_PUB) :
    zmqcat_recv msgInitOk incoming type verbose =
      if msgInitOk then Event.zmq_msg_init true :: recvLoop verbose incoming
      else [Event.zmq_msg_init false, Event.fprintf_stderr .error] := by
  cases msgInitOk <;> simp [zmqcat_recv, h1, h2]

/-- The receive loop over frames that all announce a further frame: it receives
and writes each of them and goes on with the outcomes that follow. -/
theorem recvLoop_more (verbose : Bool) (frames : List (List Byte)) (tail : List RecvOutcome) :
    ∃ pre, recvLoop verbose (frames.map (fun F => RecvOutcome.frame F true) ++ tail)
        = pre ++ recvLoop verbose tail
      ∧ received pre = frames.map some ∧ written pre = frames := by
  induction frames with
  | nil => exact ⟨[], rfl, rfl, rfl⟩
  | cons F frames ih =>
    obtain ⟨pre, h, hr, hw⟩ := ih
    refine ⟨[Event.zmq_msg_recv (some F), Event.zmq_getsockopt true]
      ++ (if verbose then [Event.fprintf_stderr (.receiving F.length)] else [])
      ++ [Event.fwrite F] ++ pre, ?_, ?_, ?_⟩
    · simp [recvLoop, h]
    · simp only [received] at hr ⊢
      cases verbose <;> simp [List.filterMap_cons, List.filterMap_append, Event.recvResult, hr]
    · simp only [written] at hw ⊢
      cases verbose <;> simp [List.filterMap_cons, List.filterMap_append, Event.writtenData, hw]


/-! ## Lemmas: order of calls -/

theorem nfb_of_no_p (p q : Event → Bool) (l : List Event) (h : ∀ x ∈ l, p x = false) :
    NeverFollowedBy p q l := by
  unfold NeverFollowedBy
  induction l with
  | nil => exact List.Pairwise.nil
  | cons a l ih =>
    refine List.Pairwise.cons (fun y _ hxy => ?_) (ih fun x hx => h x (List.mem_cons_of_mem _ hx))
    have := h a (List.mem_cons_self _ _)
    simp [this] at hxy

theorem nfb_of_no_q (p q : Event → Bool) (l : List Event) (h : ∀ x ∈ l, q x = false) :
    NeverFollowedBy p q l := by
  unfold NeverFollowedBy
  induction l with
  | nil => exact List.Pairwise.nil
  | cons a l ih =>
    refine List.Pairwise.cons (fun y hy hxy => ?_) (ih fun x hx => h x (List.mem_cons_of_mem _ hx))
    have := h y (List.mem_cons_of_mem _ hy)
    simp [this] at hxy

theorem nfb_append (p q : Event → Bool) (a b : List Event)
    (ha : NeverFollowedBy p q a) (hb : NeverFollowedBy p q b)
    (h : (∀ x ∈ a, p x = false) ∨ (∀ y ∈ b, q y = false)) :
    NeverFollowedBy p q (a ++ b) := by
  unfold NeverFollowedBy at *
  rw [List.pairwise_append]
  refine ⟨ha, hb, fun x hx y hy hxy => ?_⟩
  rcases h with h | h
  · have := h x hx
    simp [this] at hxy
  · have := h y hy
    simp [this] at hxy

/-- Calls that satisfy neither `p` nor `q` around a trace do not matter. -/
theorem nfb_frame (p q : Event → Bool) (pre mid post : List Event)
    (hpre : ∀ x ∈ pre, p x = false) (hpost : ∀ x ∈ post, q x = false)
    (hmid : NeverFollowedBy p q mid) : NeverFollowedBy p q (pre ++ mid ++ post) :=
  nfb_append p q _ _ (nfb_append p q _ _ (nfb_of_no_p p q pre hpre) hmid (Or.inl hpre))
    (nfb_of_no_q p q post hpost) (Or.inr hpost)

theorem zmqcat_send_events (msgInitSizeOk sendOk : Bool) (stdin : List Byte)
    (type : SocketType) (verbose : Bool) :
    ∀ e ∈ zmqcat_send msgInitSizeOk sendOk stdin type verbose, e.isSendSide = true := by
  intro e he
  by_cases h : type = ZMQ_PULL ∨ type = ZMQ_SUB
  · simp [zmqcat_send, h] at he
  · have h1 : type ≠ ZMQ_PULL := fun hh => h (Or.inl hh)
    have h2 : type ≠ ZMQ_SUB := fun hh => h (Or.inr hh)
    have hR : ∀ x ∈ (readLoop stack_buffer stdin).trace, x.isSendSide = true := by
      intro x hx
      have := readLoop_events stdin stack_buffer x hx
      cases x <;> simp [Event.isReadLoopCall] at this <;> rfl
    have hC : ∀ x ∈ (copyLoop stdin.length (readLoop stack_buffer stdin).chain 0
        (List.replicate stdin.length 0)).2, x.isSendSide = true := by
      intro x hx
      have := copyLoop_isMemcpy _ _ _ _ x hx
      cases x <;> simp [Event.isMemcpy] at this
      rfl
    have hD : ∀ x ∈ dealloc (readLoop stack_buffer stdin).chain, x.isSendSide = true := by
      intro x hx
      have := dealloc_isFree _ x hx
      cases x <;> simp [Event.isFree] at this
      rfl
    rw [zmqcat_send_trace _ _ _ _ _ h1 h2] at he
    simp only [List.mem_append] at he
    rcases he with (he | he) | he
    · exact hR e he
    · cases msgInitSizeOk
      · simp at he; rcases he with rfl | rfl <;> rfl
      · simp only [if_true, List.mem_append, List.mem_singleton] at he
        rcases he with (((rfl | he) | he) | rfl) | he
        · rfl
        · exact hC e he
        · cases verbose <;> simp at he
          subst he; rfl
        · rfl
        · cases sendOk <;> simp at he
          subst he; rfl
    · exact hD e he

/-- Either of the two transfer functions makes none of the calls of the other
side that matter for the order of the transfers. -/
theorem transfer_events (w : World) (type : SocketType) (verbose : Bool) :
    ∀ e ∈ transfer w type verbose, e.isSendSide = true ∨ e.isRecvSide = true := by
  intro e he
  unfold transfer at he
  split at he <;> simp only [List.mem_append] at he <;> rcases he with he | he
  · exact Or.inr (zmqcat_recv_events _ _ _ _ e he)
  · exact Or.inl (zmqcat_send_events _ _ _ _ _ e he)
  · exact Or.inl (zmqcat_send_events _ _ _ _ _ e he)
  · exact Or.inr (zmqcat_recv_events _ _ _ _ e he)


/-- The calls of `zmqcat_send` between the read loop and the `dealloc` loop
neither allocate nor free. -/
theorem zmqcat_send_middle (msgInitSizeOk sendOk : Bool) (stdin : List Byte)
    (type : SocketType) (verbose : Bool) (h1 : type ≠ ZMQ_PULL) (h2 : type ≠ ZMQ_SUB) :
    ∃ mid, zmqcat_send msgInitSizeOk sendOk stdin type verbose
        = (readLoop stack_buffer stdin).trace ++ mid
          ++ dealloc (readLoop stack_buffer stdin).chain
      ∧ ∀ e ∈ mid, e.isFree = false ∧ e.mallocAddr = none := by
  refine ⟨_, zmqcat_send_trace msgInitSizeOk sendOk stdin type verbose h1 h2, ?_⟩
  intro e he
  have hC := copyLoop_isMemcpy stdin.length (readLoop stack_buffer stdin).chain 0
    (List.replicate stdin.length 0)
  cases msgInitSizeOk
  · simp at he; rcases he with rfl | rfl <;> exact ⟨rfl, rfl⟩
  · simp only [if_true, List.mem_append, List.mem_singleton] at he
    rcases he with (((rfl | he) | he) | rfl) | he
    · exact ⟨rfl, rfl⟩
    · have := hC e he
      cases e <;> simp [Event.isMemcpy] at this
      exact ⟨rfl, rfl⟩
    · cases verbose <;> simp at he
      subst he; exact ⟨rfl, rfl⟩
    · exact ⟨rfl, rfl⟩
    · cases sendOk <;> simp at he
      subst he; exact ⟨rfl, rfl⟩


/-! ## Lemmas: `main` -/

theorem main_usage (opts : List GetoptResult) (w : World)
    (h : (parseOptions opts).endpoint = none) :
    main opts w = { status := 254, trace := usage } := by
  simp [main, h]

theorem main_init_failed (opts : List GetoptResult) (w : World) (endpoint : String)
    (h : (parseOptions opts).endpoint = some endpoint) (h0 : w.zmq_init_ok = false) :
    main opts w = { status := 1, trace := [.zmq_init false, .fprintf_stderr .error] } := by
  simp [main, h, h0]

theorem main_socket_failed (opts : List GetoptResult) (w : World) (endpoint : String)
    (h : (parseOptions opts).endpoint = some endpoint) (h0 : w.zmq_init_ok = true)
    (h1 : w.zmq_socket_ok = false) :
    main opts w = { status := 1, trace := [.zmq_init true,
      .zmq_socket (parseOptions opts).type false, .fprintf_stderr .error] } := by
  simp [main, h, h0, h1]

theorem main_attach_failed (opts : List GetoptResult) (w : World) (endpoint : String)
    (h : (parseOptions opts).endpoint = some endpoint) (h0 : w.zmq_init_ok = true)
    (h1 : w.zmq_socket_ok = true)
    (h2 : (if (parseOptions opts).bind then w.zmq_bind_ok else w.zmq_connect_ok) = false) :
    main opts w = { status := 1, trace := [.zmq_init true,
      .zmq_socket (parseOptions opts).type true,
      if (parseOptions opts).bind then .zmq_bind endpoint false else .zmq_connect endpoint false,
      .fprintf_stderr .error] } := by
  simp [main, h, h0, h1, h2]

theorem main_attached (opts : List GetoptResult) (w : World) (endpoint : String)
    (h : (parseOptions opts).endpoint = some endpoint) (h0 : w.zmq_init_ok = true)
    (h1 : w.zmq_socket_ok = true)
    (h2 : (if (parseOptions opts).bind then w.zmq_bind_ok else w.zmq_connect_ok) = true) :
    main opts w =
      { status := if w.zmq_close_ok && w.zmq_term_ok then 0 else 1
        trace := ([.zmq_init true, .zmq_socket (parseOptions opts).type true,
            if (parseOptions opts).bind then .zmq_bind endpoint true
            else .zmq_connect endpoint true]
            ++ (if (parseOptions opts).verbose
                then [.fprintf_stderr (.attached (parseOptions opts).bind endpoint)] else []))
          ++ transfer w (parseOptions opts).type (parseOptions opts).verbose
          ++ (if w.zmq_close_ok then
                (if w.zmq_term_ok then [.zmq_close true, .zmq_term true]
                 else [.zmq_close true, .zmq_term false, .fprintf_stderr .error])
              else [.zmq_close false, .fprintf_stderr .error]) } := by
  cases h3 : w.zmq_close_ok <;> cases h4 : w.zmq_term_ok <;>
    simp [main, h, h0, h1, h2, h3, h4]

/-- The trace of a run is the transfers, or nothing, between calls that `main`
makes itself. -/
theorem main_trace_shape (opts : List GetoptResult) (w : World) :
    ∃ pre mid post, (main opts w).trace = pre ++ mid ++ post
      ∧ (mid = [] ∨ mid = transfer w (parseOptions opts).type (parseOptions opts).verbose)
      ∧ (∀ e ∈ pre, e.isLifecycle = true) ∧ (∀ e ∈ post, e.isLifecycle = true) := by
  cases h : (parseOptions opts).endpoint with
  | none =>
    refine ⟨usage, [], [], by simp [main_usage opts w h], Or.inl rfl, by decide, by simp⟩
  | some endpoint =>
    cases h0 : w.zmq_init_ok with
    | false =>
      refine ⟨[.zmq_init false, .fprintf_stderr .error], [], [],
        by rw [main_init_failed opts w endpoint h h0]; simp, Or.inl rfl, by decide, by simp⟩
    | true =>
      cases h1 : w.zmq_socket_ok with
      | false =>
        refine ⟨[.zmq_init true, .zmq_socket (parseOptions opts).type false,
          .fprintf_stderr .error], [], [],
          by rw [main_socket_failed opts w endpoint h h0 h1]; simp, Or.inl rfl, ?_, by simp⟩
        intro e he
        simp only [List.mem_cons, List.mem_singleton, List.not_mem_nil, or_false] at he
        rcases he with rfl | rfl | rfl <;> rfl
      | true =>
        cases h2 : (if (parseOptions opts).bind then w.zmq_bind_ok else w.zmq_connect_ok) with
        | false =>
          refine ⟨[.zmq_init true, .zmq_socket (parseOptions opts).type true,
            if (parseOptions opts).bind then .zmq_bind endpoint false
            else .zmq_connect endpoint false, .fprintf_stderr .error], [], [],
            by rw [main_attach_failed opts w endpoint h h0 h1 h2]; simp, Or.inl rfl, ?_, by simp⟩
          intro e he
          simp only [List.mem_cons, List.mem_singleton, List.not_mem_nil, or_false] at he
          rcases he with rfl | rfl | rfl | rfl
          · rfl
          · rfl
          · cases (parseOptions opts).bind <;> rfl
          · rfl
        | true =>
          refine ⟨[.zmq_init true, .zmq_socket (parseOptions opts).type true,
              if (parseOptions opts).bind then .zmq_bind endpoint true
              else .zmq_connect endpoint true]
              ++ (if (parseOptions opts).verbose
                  then [.fprintf_stderr (.attached (parseOptions opts).bind endpoint)] else []),
            transfer w (parseOptions opts).type (parseOptions opts).verbose,
            if w.zmq_close_ok then
                (if w.zmq_term_ok then [.zmq_close true, .zmq_term true]
                 else [.zmq_close true, .zmq_term false, .fprintf_stderr .error])
              else [.zmq_close false, .fprintf_stderr .error],
            by rw [main_attached opts w endpoint h h0 h1 h2], Or.inr rfl, ?_, ?_⟩
          · intro e he
            simp only [List.mem_append, List.mem_cons, List.mem_singleton, List.not_mem_nil,
              or_false] at he
            rcases he with (rfl | rfl | rfl) | he
            · rfl
            · rfl
            · cases (parseOptions opts).bind <;> rfl
            · cases hv : (parseOptions opts).verbose <;> simp [hv] at he
              subst he; rfl
          · intro e he
            cases h3 : w.zmq_close_ok <;> cases h4 : w.zmq_term_ok <;>
              simp only [h3, h4, if_true, if_false, Bool.false_eq_true, List.mem_cons,
                List.mem_singleton, List.not_mem_nil, or_false] at he
            · rcases he with rfl | rfl <;> rfl
            · rcases he with rfl | rfl <;> rfl
            · rcases he with rfl | rfl | rfl <;> rfl
            · rcases he with rfl | rfl <;> rfl


theorem lifecycle_not_transfer (e : Event) (h : e.isLifecycle = true) :
    e.isFread = false ∧ e.isSend = false ∧ e.isRecv = false ∧ e.isFwrite = false
      ∧ e.isFailedSend = false ∧ e.isFailedRecv = false := by
  cases e <;> simp [Event.isLifecycle] at h <;> exact ⟨rfl, rfl, rfl, rfl, rfl, rfl⟩

theorem recvSide_not_send (e : Event) (h : e.isRecvSide = true) :
    e.isFread = false ∧ e.isSend = false ∧ e.isFailedSend = false
      ∧ e.isLifecycleFailure = false := by
  cases e <;> simp [Event.isRecvSide] at h <;> exact ⟨rfl, rfl, rfl, rfl⟩

theorem sendSide_not_recv (e : Event) (h : e.isSendSide = true) :
    e.isRecv = false ∧ e.isFwrite = false ∧ e.isFailedRecv = false
      ∧ e.isLifecycleFailure = false := by
  cases e <;> simp [Event.isSendSide] at h <;> exact ⟨rfl, rfl, rfl, rfl⟩

theorem nfb_mono (p p2 q q2 : Event → Bool) (l : List Event)
    (hp : ∀ e, p2 e = true → p e = true) (hq : ∀ e, q2 e = true → q e = true)
    (h : NeverFollowedBy p q l) : NeverFollowedBy p2 q2 l :=
  List.Pairwise.imp (fun hxy hxy2 => hxy ⟨hp _ hxy2.1, hq _ hxy2.2⟩) h

/-- Function `zmqcat_send` calls `zmq_msg_send` at most once. -/
theorem zmqcat_send_single_send (msgInitSizeOk sendOk : Bool) (stdin : List Byte)
    (type : SocketType) (verbose : Bool) :
    NeverFollowedBy Event.isSend Event.isSend
      (zmqcat_send msgInitSizeOk sendOk stdin type verbose) := by
  by_cases h : type = ZMQ_PULL ∨ type = ZMQ_SUB
  · simp [zmqcat_send, h, NeverFollowedBy]
  · have hR : ∀ x ∈ (readLoop stack_buffer stdin).trace, x.isSend = false := by
      intro x hx
      have := readLoop_events stdin stack_buffer x hx
      cases x <;> simp [Event.isReadLoopCall] at this <;> rfl
    have hC : ∀ x ∈ (copyLoop stdin.length (readLoop stack_buffer stdin).chain 0
        (List.replicate stdin.length 0)).2, x.isSend = false := by
      intro x hx
      have := copyLoop_isMemcpy _ _ _ _ x hx
      cases x <;> simp [Event.isMemcpy] at this
      rfl
    have hD : ∀ x ∈ dealloc (readLoop stack_buffer stdin).chain, x.isSend = false := by
      intro x hx
      have := dealloc_isFree _ x hx
      cases x <;> simp [Event.isFree] at this
      rfl
    rw [zmqcat_send_trace _ _ _ _ _ (fun hh => h (Or.inl hh)) (fun hh => h (Or.inr hh))]
    refine nfb_frame _ _ _ _ _ hR hD ?_
    cases msgInitSizeOk
    · refine nfb_of_no_p _ _ _ ?_
      intro x hx
      simp at hx
      rcases hx with rfl | rfl <;> rfl
    · simp only [if_true]
      refine nfb_append _ _ _ _ (nfb_append _ _ _ _ (nfb_of_no_p _ _ _ ?_) ?_ (Or.inl ?_))
        (nfb_of_no_q _ _ _ ?_) (Or.inr ?_)
      · intro x hx
        simp only [List.mem_append, List.mem_singleton] at hx
        rcases hx with (rfl | hx) | hx
        · rfl
        · exact hC x hx
        · cases verbose <;> simp at hx
          subst hx; rfl
      · exact List.pairwise_singleton _ _
      · intro x hx
        simp only [List.mem_append, List.mem_singleton] at hx
        rcases hx with (rfl | hx) | hx
        · rfl
        · exact hC x hx
        · cases verbose <;> simp at hx
          subst hx; rfl
      · cases sendOk <;> simp [Event.isSend]
      · cases sendOk <;> simp [Event.isSend]

/-- In the receive loop nothing is received after a failed receive. -/
theorem recvLoop_stops_at_failure (verbose : Bool) (incoming : List RecvOutcome) :
    NeverFollowedBy Event.isFailedRecv Event.isRecv (recvLoop verbose incoming) := by
  induction incoming with
  | nil => simp only [recvLoop]; decide
  | cons o rest ih =>
    cases o with
    | fail => simp only [recvLoop]; decide
    | frame data rcvmore =>
      simp only [recvLoop]
      have hpre : ∀ x ∈ [Event.zmq_msg_recv (some data), Event.zmq_getsockopt rcvmore]
          ++ (if verbose then [Event.fprintf_stderr (.receiving data.length)] else [])
          ++ [Event.fwrite data], x.isFailedRecv = false := by
        intro x hx
        simp only [List.mem_append, List.mem_cons, List.mem_singleton, List.not_mem_nil,
          or_false] at hx
        rcases hx with ((rfl | rfl) | hx) | rfl
        · rfl
        · rfl
        · cases verbose <;> simp at hx
          subst hx; rfl
        · rfl
      refine nfb_append _ _ _ _ (nfb_of_no_p _ _ _ hpre) ?_ (Or.inl hpre)
      cases rcvmore
      · exact List.Pairwise.nil
      · exact ih

theorem zmqcat_recv_stops_at_failure (msgInitOk : Bool) (incoming : List RecvOutcome)
    (type : SocketType) (verbose : Bool) :
    NeverFollowedBy Event.isFailedRecv Event.isRecv
      (zmqcat_recv msgInitOk incoming type verbose) := by
  unfold zmqcat_recv
  split
  · exact List.Pairwise.nil
  · split
    · decide
    · exact nfb_append _ _ [Event.zmq_msg_init true] _ (List.pairwise_singleton _ _)
        (recvLoop_stops_at_failure verbose incoming) (Or.inl (by decide))

/-- The two transfers make no call of `main`'s own and so cannot be a failed
one of them. -/
theorem transfer_no_lifecycle_failure (w : World) (type : SocketType) (verbose : Bool) :
    ∀ e ∈ transfer w type verbose, e.isLifecycleFailure = false := by
  intro e he
  rcases transfer_events w type verbose e he with h | h
  · exact (sendSide_not_recv e h).2.2.2
  · exact (recvSide_not_send e h).2.2.2

/-- Order of the transfers on a REP socket: receive, then send. -/
theorem transfer_rep_order (w : World) (verbose : Bool) :
    NeverFollowedBy (fun e => e.isFread || e.isSend) (fun e => e.isRecv || e.isFwrite)
      (transfer w ZMQ_REP verbose) := by
  have hr : ∀ x ∈ zmqcat_recv w.zmq_msg_init_ok w.incoming ZMQ_REP verbose,
      (x.isFread || x.isSend) = false := by
    intro x hx
    have := recvSide_not_send x (zmqcat_recv_events _ _ _ _ x hx)
    simp [this.1, this.2.1]
  have hs : ∀ x ∈ zmqcat_send w.zmq_msg_init_size_ok w.zmq_msg_send_ok w.stdin ZMQ_REP verbose,
      (x.isRecv || x.isFwrite) = false := by
    intro x hx
    have := sendSide_not_recv x (zmqcat_send_events _ _ _ _ _ x hx)
    simp [this.1, this.2.1]
  simp only [transfer, if_true]
  exact nfb_append _ _ _ _ (nfb_of_no_p _ _ _ hr) (nfb_of_no_q _ _ _ hs) (Or.inl hr)

/-- Order of the transfers on any other socket: send, then receive. -/
theorem transfer_other_order (w : World) (type : SocketType) (verbose : Bool)
    (h : type ≠ ZMQ_REP) :
    NeverFollowedBy Event.isRecv Event.isSend (transfer w type verbose) := by
  have hr : ∀ x ∈ zmqcat_recv w.zmq_msg_init_ok w.incoming type verbose, x.isSend = false :=
    fun x hx => (recvSide_not_send x (zmqcat_recv_events _ _ _ _ x hx)).2.1
  have hs : ∀ x ∈ zmqcat_send w.zmq_msg_init_size_ok w.zmq_msg_send_ok w.stdin type verbose,
      x.isRecv = false :=
    fun x hx => (sendSide_not_recv x (zmqcat_send_events _ _ _ _ _ x hx)).1
  simp only [transfer, if_neg h]
  exact nfb_append _ _ _ _ (nfb_of_no_p _ _ _ hs) (nfb_of_no_q _ _ _ hr) (Or.inl hs)

/-- A property of the order of transfer calls carries over from the transfers
to the whole run. -/
theorem main_nfb (p q : Event → Bool) (opts : List GetoptResult) (w : World)
    (hp : ∀ e, e.isLifecycle = true → p e = false)
    (hq : ∀ e, e.isLifecycle = true → q e = false)
    (h : NeverFollowedBy p q (transfer w (parseOptions opts).type (parseOptions opts).verbose)) :
    NeverFollowedBy p q (main opts w).trace := by
  obtain ⟨pre, mid, post, ht, hmid, hpre, hpost⟩ := main_trace_shape opts w
  rw [ht]
  refine nfb_frame p q pre mid post (fun x hx => hp x (hpre x hx))
    (fun x hx => hq x (hpost x hx)) ?_
  rcases hmid with rfl | rfl
  · exact List.Pairwise.nil
  · exact h

theorem transfer_no_retry (w : World) (type : SocketType) (verbose : Bool) :
    NeverFollowedBy Event.isFailedSend Event.isSend (transfer w type verbose)
      ∧ NeverFollowedBy Event.isFailedRecv Event.isRecv (transfer w type verbose) := by
  have hS : NeverFollowedBy Event.isFailedSend Event.isSend
      (zmqcat_send w.zmq_msg_init_size_ok w.zmq_msg_send_ok w.stdin type verbose) :=
    nfb_mono Event.isSend _ Event.isSend _ _
      (by intro e he; cases e <;> simp [Event.isFailedSend] at he; rfl) (fun _ he => he)
      (zmqcat_send_single_send _ _ _ _ _)
  have hR := zmqcat_recv_stops_at_failure w.zmq_msg_init_ok w.incoming type verbose
  have hr : ∀ x ∈ zmqcat_recv w.zmq_msg_init_ok w.incoming type verbose,
      x.isSend = false ∧ x.isFailedSend = false :=
    fun x hx => ⟨(recvSide_not_send x (zmqcat_recv_events _ _ _ _ x hx)).2.1,
      (recvSide_not_send x (zmqcat_recv_events _ _ _ _ x hx)).2.2.1⟩
  have hs : ∀ x ∈ zmqcat_send w.zmq_msg_init_size_ok w.zmq_msg_send_ok w.stdin type verbose,
      x.isRecv = false ∧ x.isFailedRecv = false :=
    fun x hx => ⟨(sendSide_not_recv x (zmqcat_send_events _ _ _ _ _ x hx)).1,
      (sendSide_not_recv x (zmqcat_send_events _ _ _ _ _ x hx)).2.2.1⟩
  unfold transfer
  split
  · exact ⟨nfb_append _ _ _ _ (nfb_of_no_p _ _ _ fun x hx => (hr x hx).2) hS
        (Or.inl fun x hx => (hr x hx).2),
      nfb_append _ _ _ _ hR (nfb_of_no_q _ _ _ fun x hx => (hs x hx).1)
        (Or.inr fun x hx => (hs x hx).1)⟩
  · exact ⟨nfb_append _ _ _ _ hS (nfb_of_no_q _ _ _ fun x hx => (hr x hx).1)
        (Or.inr fun x hx => (hr x hx).1),
      nfb_append _ _ _ _ (nfb_of_no_p _ _ _ fun x hx => (hs x hx).2) hR
        (Or.inl fun x hx => (hs x hx).2)⟩

theorem parseOption_never_sub (o : Options) (g : GetoptResult) (h : o.type ≠ ZMQ_SUB) :
    (parseOption o g).type ≠ ZMQ_SUB := by
  unfold parseOption
  repeat' split
  all_goals first | exact h | simp

/-- No argument vector makes `main` select `ZMQ_SUB`. -/
theorem parseOptions_never_sub (opts : List GetoptResult) :
    (parseOptions opts).type ≠ ZMQ_SUB := by
  have h : ∀ (l : List GetoptResult) (o : Options), o.type ≠ ZMQ_SUB →
      (l.foldl parseOption o).type ≠ ZMQ_SUB := by
    intro l
    induction l with
    | nil => intro o ho; exact ho
    | cons g l ih => intro o ho; exact ih _ (parseOption_never_sub o g ho)
  exact h opts Options.init (by decide)

/-- The gates of the two transfer functions: a PUSH or PUB run makes no
receive call and a PULL or SUB run makes no send call. -/
theorem main_gating (opts : List GetoptResult) (w : World) :
    ((parseOptions opts).type = ZMQ_PUSH ∨ (parseOptions opts).type = ZMQ_PUB →
        ∀ e ∈ (main opts w).trace, e.isRecv = false)
      ∧ ((parseOptions opts).type = ZMQ_PULL ∨ (parseOptions opts).type = ZMQ_SUB →
        ∀ e ∈ (main opts w).trace, e.isSend = false) := by
  obtain ⟨pre, mid, post, ht, hmid, hpre, hpost⟩ := main_trace_shape opts w
  constructor
  · intro h e he
    rw [ht] at he
    simp only [List.mem_append] at he
    rcases he with (he | he) | he
    · exact (lifecycle_not_transfer e (hpre e he)).2.2.1
    · rcases hmid with rfl | rfl
      · simp at he
      · have hr : zmqcat_recv w.zmq_msg_init_ok w.incoming (parseOptions opts).type
            (parseOptions opts).verbose = [] := by simp [zmqcat_recv, h]
        unfold transfer at he
        rw [hr] at he
        split at he <;> simp only [List.nil_append, List.append_nil] at he <;>
          exact (sendSide_not_recv e (zmqcat_send_events _ _ _ _ _ e he)).1
    · exact (lifecycle_not_transfer e (hpost e he)).2.2.1
  · intro h e he
    rw [ht] at he
    simp only [List.mem_append] at he
    rcases he with (he | he) | he
    · exact (lifecycle_not_transfer e (hpre e he)).2.1
    · rcases hmid with rfl | rfl
      · simp at he
      · have hs : zmqcat_send w.zmq_msg_init_size_ok w.zmq_msg_send_ok w.stdin
            (parseOptions opts).type (parseOptions opts).verbose = [] := by
          simp [zmqcat_send, h]
        unfold transfer at he
        rw [hs] at he
        split at he <;> simp only [List.nil_append, List.append_nil] at he <;>
          exact (recvSide_not_send e (zmqcat_recv_events _ _ _ _ e he)).2.1
    · exact (lifecycle_not_transfer e (hpost e he)).2.1


/-! ## The claims -/

/-- C1. Round trip of the Assembler: for every byte sequence `S` on standard
input and every socket type other than PULL and SUB, when `zmq_msg_init_size`
succeeds, `zmqcat_send` reads all of `S`, initialises one message of size
`S.length`, and hands to `zmq_msg_send` exactly one message, whose bytes are
`S`. -/
theorem zmqcat_send_round_trip (S : List Byte) (type : SocketType) (verbose sendOk : Bool)
    (hPull : type ≠ ZMQ_PULL) (hSub : type ≠ ZMQ_SUB) :
    stdinRead (zmqcat_send true sendOk S type verbose) = S
      ∧ initSizes (zmqcat_send true sendOk S type verbose) = [(S.length, true)]
      ∧ sent (zmqcat_send true sendOk S type verbose) = [(S, sendOk)] := by
  have hR := readLoop_events S stack_buffer
  have hC := copyLoop_isMemcpy S.length (readLoop stack_buffer S).chain 0
    (List.replicate S.length 0)
  have hD := dealloc_isFree (readLoop stack_buffer S).chain
  rw [zmqcat_send_trace true sendOk S type verbose hPull hSub]
  refine ⟨?_, ?_, ?_⟩
  · have h1 := readLoop_stdinRead S stack_buffer
    simp only [stdinRead] at h1 ⊢
    have h2 := filterMap_eq_nil_of Event.readData Event.isMemcpy _ hC
      (by intro e; cases e <;> simp [Event.isMemcpy, Event.readData])
    have h3 := filterMap_eq_nil_of Event.readData Event.isFree _ hD
      (by intro e; cases e <;> simp [Event.isFree, Event.readData])
    cases verbose <;> cases sendOk <;>
      simp [List.filterMap_append, h1, h2, h3, Event.readData]
  · have h1 := filterMap_eq_nil_of Event.initSize Event.isReadLoopCall _ hR
      (by intro e; cases e <;> simp [Event.isReadLoopCall, Event.initSize])
    have h2 := filterMap_eq_nil_of Event.initSize Event.isMemcpy _ hC
      (by intro e; cases e <;> simp [Event.isMemcpy, Event.initSize])
    have h3 := filterMap_eq_nil_of Event.initSize Event.isFree _ hD
      (by intro e; cases e <;> simp [Event.isFree, Event.initSize])
    cases verbose <;> cases sendOk <;>
      simp [initSizes, List.filterMap_append, h1, h2, h3, Event.initSize]
  · have h1 := filterMap_eq_nil_of Event.sentMsg Event.isReadLoopCall _ hR
      (by intro e; cases e <;> simp [Event.isReadLoopCall, Event.sentMsg])
    have h2 := filterMap_eq_nil_of Event.sentMsg Event.isMemcpy _ hC
      (by intro e; cases e <;> simp [Event.isMemcpy, Event.sentMsg])
    have h3 := filterMap_eq_nil_of Event.sentMsg Event.isFree _ hD
      (by intro e; cases e <;> simp [Event.isFree, Event.sentMsg])
    cases verbose <;> cases sendOk <;>
      simp [sent, List.filterMap_append, h1, h2, h3, Event.sentMsg]

/-- C1, witness: `hello` sent through a PUSH socket. -/
theorem zmqcat_send_round_trip_witness :
    stdinRead (zmqcat_send true true hello ZMQ_PUSH false) = hello
      ∧ initSizes (zmqcat_send true true hello ZMQ_PUSH false) = [(hello.length, true)]
      ∧ sent (zmqcat_send true true hello ZMQ_PUSH false) = [(hello, true)] :=
  zmqcat_send_round_trip hello ZMQ_PUSH false true (by decide) (by decide)


/-- C8. Empty input is still sent: for every socket type other than PULL and
SUB, when standard input is empty and `zmq_msg_init_size` succeeds, the calls
of `zmqcat_send` are exactly: one `fread` that stores nothing, the
initialisation of a message of size 0, one `memcpy` of 0 bytes, the `sending`
report when verbose, one `zmq_msg_send` of the empty message, and an error
report only when that send itself fails.  Nothing is allocated or freed. -/
theorem zmqcat_send_empty_input (type : SocketType) (verbose sendOk : Bool)
    (hPull : type ≠ ZMQ_PULL) (hSub : type ≠ ZMQ_SUB) :
    zmqcat_send true sendOk [] type verbose =
      [Event.fread [], Event.zmq_msg_init_size 0 true, Event.memcpy 0 stack_buffer 0]
        ++ (if verbose then [Event.fprintf_stderr (.sending 0)] else [])
        ++ [Event.zmq_msg_send [] sendOk]
        ++ (if sendOk then [] else [Event.fprintf_stderr .error]) := by
  rw [zmqcat_send_trace true sendOk [] type verbose hPull hSub,
    readLoop_short stack_buffer [] (by decide)]
  simp [copyLoop, dealloc]

/-- C8, witness: empty input on a PUSH socket, not verbose, send succeeding. -/
theorem zmqcat_send_empty_input_witness :
    zmqcat_send true true [] ZMQ_PUSH false =
      [Event.fread [], Event.zmq_msg_init_size 0 true, Event.memcpy 0 stack_buffer 0,
        Event.zmq_msg_send [] true] := by
  simpa using zmqcat_send_empty_input ZMQ_PUSH false true (by decide) (by decide)

/-- C9, as stated, fails at `L = C`: with exactly `SEND_BUFFER_SIZE` bytes on
standard input (`L mod C = 0`, `L > 0`) the read loop allocates one heap chunk
and leaves a chain of two chunks, the stack chunk full and the heap chunk
empty, not the `L / C = 1` chunk of the claim. -/
theorem readLoop_trailing_chunk_at_capacity :
    oneFullChunk.length % SEND_BUFFER_SIZE = 0 ∧ 0 < oneFullChunk.length
      ∧ (readLoop stack_buffer oneFullChunk).chain.length = 2
      ∧ (readLoop stack_buffer oneFullChunk).chain.map (fun c => c.data.length)
          = [SEND_BUFFER_SIZE, 0]
      ∧ mallocs (readLoop stack_buffer oneFullChunk).trace = [1]
      ∧ (readLoop stack_buffer oneFullChunk).chain.length
          ≠ oneFullChunk.length / SEND_BUFFER_SIZE := by
  have hl : oneFullChunk.length = SEND_BUFFER_SIZE := List.length_replicate _ _
  have hd : SEND_BUFFER_SIZE / SEND_BUFFER_SIZE = 1 := by decide
  have hm : SEND_BUFFER_SIZE % SEND_BUFFER_SIZE = 0 := by decide
  refine ⟨by rw [hl, hm], by rw [hl]; decide, ?_, ?_, ?_, ?_⟩
  · rw [readLoop_chain_length, hl, hd]
  · rw [readLoop_chain_data_length, hl, hd, hm]; rfl
  · rw [readLoop_mallocs, hl, hd]; rfl
  · rw [readLoop_chain_length, hl, hd]; decide

/-- C9, amended: for every input of length `L` the chain at the end of
ingestion has `L / C + 1` chunks, the first stack chunk counted, of which
`L / C` were allocated on the heap; all chunks but the last hold `C` bytes and
the last holds `L mod C` bytes, so it is empty when `C` divides `L`. -/
theorem readLoop_chunk_count (S : List Byte) :
    (readLoop stack_buffer S).chain.length = S.length / SEND_BUFFER_SIZE + 1
      ∧ (mallocs (readLoop stack_buffer S).trace).length = S.length / SEND_BUFFER_SIZE
      ∧ (readLoop stack_buffer S).chain.map (fun c => c.data.length)
          = List.replicate (S.length / SEND_BUFFER_SIZE) SEND_BUFFER_SIZE
              ++ [S.length % SEND_BUFFER_SIZE] := by
  refine ⟨readLoop_chain_length S _, ?_, readLoop_chain_data_length S _⟩
  rw [readLoop_mallocs, List.length_range']

/-- C10. No chunk leak: for every input, socket type and outcome of
`zmq_msg_init_size` and `zmq_msg_send`, the blocks `zmqcat_send` passes to
`free` are exactly the blocks its `malloc` calls returned, each once and in
allocation order; `stack_buffer` is not among them; every `free` is of a chunk
that is live at that moment and no heap chunk is live at the return.  The heap
chunks are the chunks linked behind `stack_buffer` in the chain. -/
theorem zmqcat_send_frees_chain (S : List Byte) (type : SocketType)
    (verbose msgInitSizeOk sendOk : Bool) :
    frees (zmqcat_send msgInitSizeOk sendOk S type verbose)
        = mallocs (zmqcat_send msgInitSizeOk sendOk S type verbose)
      ∧ (frees (zmqcat_send msgInitSizeOk sendOk S type verbose)).Nodup
      ∧ stack_buffer ∉ frees (zmqcat_send msgInitSizeOk sendOk S type verbose)
      ∧ heapAfter (zmqcat_send msgInitSizeOk sendOk S type verbose) [] = some []
      ∧ (readLoop stack_buffer S).chain.map Chunk.addr
          = stack_buffer :: mallocs (readLoop stack_buffer S).trace := by
  have hchain : (readLoop stack_buffer S).chain.map Chunk.addr
      = stack_buffer :: mallocs (readLoop stack_buffer S).trace := by
    rw [readLoop_chain_addr, readLoop_mallocs, List.range'_succ]
  by_cases h : type = ZMQ_PULL ∨ type = ZMQ_SUB
  · simp [zmqcat_send, h, frees, mallocs, heapAfter, hchain]
  · obtain ⟨mid, ht, hmid⟩ := zmqcat_send_middle msgInitSizeOk sendOk S type verbose
      (fun hh => h (Or.inl hh)) (fun hh => h (Or.inr hh))
    have hR := readLoop_events S stack_buffer
    have hD := dealloc_isFree (readLoop stack_buffer S).chain
    have hfD : frees (dealloc (readLoop stack_buffer S).chain)
        = mallocs (readLoop stack_buffer S).trace := by
      rw [frees_dealloc, hchain, List.tail_cons]
    have hfR : frees (readLoop stack_buffer S).trace = [] :=
      filterMap_eq_nil_of Event.freeAddr Event.isReadLoopCall _ hR
        (by intro e; cases e <;> simp [Event.isReadLoopCall, Event.freeAddr])
    have hfM : frees mid = [] :=
      List.filterMap_eq_nil_iff.2 fun e he => by
        have := (hmid e he).1
        cases e <;> simp [Event.isFree] at this <;> rfl
    have hmM : mallocs mid = [] :=
      List.filterMap_eq_nil_iff.2 fun e he => (hmid e he).2
    have hmD : mallocs (dealloc (readLoop stack_buffer S).chain) = [] :=
      filterMap_eq_nil_of Event.mallocAddr Event.isFree _ hD
        (by intro e; cases e <;> simp [Event.isFree, Event.mallocAddr])
    have hf : frees (zmqcat_send msgInitSizeOk sendOk S type verbose)
        = mallocs (readLoop stack_buffer S).trace := by
      rw [ht]
      simp only [frees, List.filterMap_append] at hfD hfR hfM ⊢
      rw [hfD, hfR, hfM, List.nil_append, List.nil_append]
    have hm : mallocs (zmqcat_send msgInitSizeOk sendOk S type verbose)
        = mallocs (readLoop stack_buffer S).trace := by
      rw [ht]
      simp only [mallocs, List.filterMap_append] at hmD hmM ⊢
      rw [hmD, hmM, List.append_nil, List.append_nil]
    have hdealloc : dealloc (readLoop stack_buffer S).chain
        = (mallocs (readLoop stack_buffer S).trace).map Event.free := by
      have := congrArg List.tail hchain
      rw [List.tail_cons, ← List.map_tail] at this
      rw [dealloc, ← this, List.map_map]
      rfl
    refine ⟨by rw [hf, hm], ?_, ?_, ?_, hchain⟩
    · rw [hf, readLoop_mallocs]
      exact List.nodup_range' _ _
    · rw [hf, readLoop_mallocs, List.mem_range']
      rintro ⟨i, _, hi⟩
      simp only [stack_buffer] at hi
      omega
    · rw [ht, heapAfter_append, heapAfter_append,
        heapAfter_no_free _ (fun e he => by
          have := hR e he
          cases e <;> simp [Event.isReadLoopCall] at this <;> rfl),
        Option.some_bind, heapAfter_no_free _ (fun e he => (hmid e he).1), hmM]
      simp only [List.nil_append, List.append_nil, Option.some_bind]
      rw [hdealloc]
      exact heapAfter_frees _


/-- C2. Frame concatenation of the Relay: for every logical message of
`n ≥ 1` frames (`frames` followed by `last`) whose more-frames flag is set
after each frame but the last, for every socket type other than PUSH and PUB
and whatever the socket would deliver afterwards (`rest`), when
`zmq_msg_init` and every receive succeed, `zmqcat_recv` makes exactly `n`
receives, which give the `n` frames, writes the frames one by one in arrival
order, and standard output receives their concatenation and nothing else. -/
theorem zmqcat_recv_concatenates (frames : List (List Byte)) (last : List Byte)
    (rest : List RecvOutcome) (type : SocketType) (verbose : Bool)
    (hPush : type ≠ ZMQ_PUSH) (hPub : type ≠ ZMQ_PUB) :
    received (zmqcat_recv true
        (frames.map (fun F => RecvOutcome.frame F true) ++ RecvOutcome.frame last false :: rest)
        type verbose) = (frames ++ [last]).map some
      ∧ written (zmqcat_recv true
        (frames.map (fun F => RecvOutcome.frame F true) ++ RecvOutcome.frame last false :: rest)
        type verbose) = frames ++ [last]
      ∧ stdoutOf (zmqcat_recv true
        (frames.map (fun F => RecvOutcome.frame F true) ++ RecvOutcome.frame last false :: rest)
        type verbose) = (frames ++ [last]).flatten := by
  obtain ⟨pre, h, hr, hw⟩ := recvLoop_more verbose frames (RecvOutcome.frame last false :: rest)
  have hR : received (zmqcat_recv true
      (frames.map (fun F => RecvOutcome.frame F true) ++ RecvOutcome.frame last false :: rest)
      type verbose) = (frames ++ [last]).map some := by
    rw [zmqcat_recv_trace _ _ _ _ hPush hPub, if_pos rfl, h]
    simp only [received] at hr ⊢
    cases verbose <;>
      simp [recvLoop, List.filterMap_cons, List.filterMap_append, Event.recvResult, hr]
  have hW : written (zmqcat_recv true
      (frames.map (fun F => RecvOutcome.frame F true) ++ RecvOutcome.frame last false :: rest)
      type verbose) = frames ++ [last] := by
    rw [zmqcat_recv_trace _ _ _ _ hPush hPub, if_pos rfl, h]
    simp only [written] at hw ⊢
    cases verbose <;>
      simp [recvLoop, List.filterMap_cons, List.filterMap_append, Event.writtenData, hw]
  exact ⟨hR, hW, by rw [stdoutOf, hW]⟩

/-- C2, witness: a message of the two frames `hello` and `[33]` on a PULL
socket. -/
theorem zmqcat_recv_concatenates_witness :
    received (zmqcat_recv true [.frame hello true, .frame [33] false] ZMQ_PULL false)
        = [some hello, some [33]]
      ∧ written (zmqcat_recv true [.frame hello true, .frame [33] false] ZMQ_PULL false)
        = [hello, [33]]
      ∧ stdoutOf (zmqcat_recv true [.frame hello true, .frame [33] false] ZMQ_PULL false)
        = [104, 101, 108, 108, 111, 33] :=
  zmqcat_recv_concatenates [hello] [33] [] ZMQ_PULL false (by decide) (by decide)

/-- C7. Relay abort on receive failure: for every `k ≥ 1`, when the first
`k - 1` receives deliver `frames` (each announcing a further frame) and the
`k`-th receive fails, on a socket type other than PUSH and PUB with
`zmq_msg_init` succeeding, the failed receive and its error report are the
last two calls of `zmqcat_recv`; the calls before them received and wrote
exactly `frames`, and standard output has received the concatenation of
`frames` and nothing else. -/
theorem zmqcat_recv_aborts (frames : List (List Byte)) (rest : List RecvOutcome)
    (type : SocketType) (verbose : Bool) (hPush : type ≠ ZMQ_PUSH) (hPub : type ≠ ZMQ_PUB) :
    ∃ pre, zmqcat_recv true
          (frames.map (fun F => RecvOutcome.frame F true) ++ RecvOutcome.fail :: rest)
          type verbose
        = pre ++ [Event.zmq_msg_recv none, Event.fprintf_stderr .error]
      ∧ received pre = frames.map some
      ∧ written pre = frames
      ∧ stdoutOf (zmqcat_recv true
          (frames.map (fun F => RecvOutcome.frame F true) ++ RecvOutcome.fail :: rest)
          type verbose) = frames.flatten := by
  obtain ⟨pre, h, hr, hw⟩ := recvLoop_more verbose frames (RecvOutcome.fail :: rest)
  have ht : zmqcat_recv true
      (frames.map (fun F => RecvOutcome.frame F true) ++ RecvOutcome.fail :: rest) type verbose
      = (Event.zmq_msg_init true :: pre)
        ++ [Event.zmq_msg_recv none, Event.fprintf_stderr .error] := by
    rw [zmqcat_recv_trace _ _ _ _ hPush hPub, if_pos rfl, h]
    simp [recvLoop]
  have hW : written (Event.zmq_msg_init true :: pre) = frames := by
    simp only [written] at hw ⊢
    simp [List.filterMap_cons, Event.writtenData, hw]
  refine ⟨Event.zmq_msg_init true :: pre, ht, ?_, hW, ?_⟩
  · simp only [received] at hr ⊢
    simp [List.filterMap_cons, Event.recvResult, hr]
  · rw [ht]
    simp only [stdoutOf, written] at hw ⊢
    simp [List.filterMap_append, List.filterMap_cons, Event.writtenData, hw]

/-- C7, witness: the second receive fails after the frame `hello`, on a REQ
socket. -/
theorem zmqcat_recv_aborts_witness :
    ∃ pre, zmqcat_recv true [.frame hello true, .fail, .frame [33] false] ZMQ_REQ true
        = pre ++ [Event.zmq_msg_recv none, Event.fprintf_stderr .error]
      ∧ received pre = [some hello]
      ∧ written pre = [hello]
      ∧ stdoutOf (zmqcat_recv true [.frame hello true, .fail, .frame [33] false] ZMQ_REQ true)
        = hello :=
  zmqcat_recv_aborts [hello] [.frame [33] false] ZMQ_REQ true (by decide) (by decide)


/-- C4. Operation order by role: in every run whose socket type is REP, no
read of standard input and no send call is followed by a receive or by a write
to standard output, so all receives and their writes come strictly before
standard input is read and before the send; in every run with another socket
type, no receive is followed by a send call, so the send comes strictly before
the first receive. -/
theorem main_transfer_order (opts : List GetoptResult) (w : World) :
    ((parseOptions opts).type = ZMQ_REP →
        NeverFollowedBy (fun e => e.isFread || e.isSend) (fun e => e.isRecv || e.isFwrite)
          (main opts w).trace)
      ∧ ((parseOptions opts).type ≠ ZMQ_REP →
        NeverFollowedBy Event.isRecv Event.isSend (main opts w).trace) := by
  constructor
  · intro h
    refine main_nfb _ _ opts w ?_ ?_ ?_
    · intro e he
      have := lifecycle_not_transfer e he
      simp [this.1, this.2.1]
    · intro e he
      have := lifecycle_not_transfer e he
      simp [this.2.2.1, this.2.2.2.1]
    · rw [h]
      exact transfer_rep_order w _
  · intro h
    exact main_nfb _ _ opts w (fun e he => (lifecycle_not_transfer e he).2.2.1)
      (fun e he => (lifecycle_not_transfer e he).2.1) (transfer_other_order w _ _ h)

/-- C4, witness: `-t REP` (any letter case selects the pattern) with a
two-frame request and `hello` as the answer, and `-t req` with `hello` as the
request. -/
theorem main_transfer_order_witness :
    NeverFollowedBy (fun e => e.isFread || e.isSend) (fun e => e.isRecv || e.isFwrite)
        (main repOpts (World.allOk hello [.frame [33] true, .frame [34] false])).trace
      ∧ NeverFollowedBy Event.isRecv Event.isSend
        (main reqOpts (World.allOk hello [.frame [33] false])).trace :=
  ⟨(main_transfer_order repOpts _).1 (by decide), (main_transfer_order reqOpts _).2 (by decide)⟩

/-- C6, amended: in every run, no failed send call is followed by another send
call and no failed receive call is followed by another receive call: a failed
operation is never retried. -/
theorem main_no_retry (opts : List GetoptResult) (w : World) :
    NeverFollowedBy Event.isFailedSend Event.isSend (main opts w).trace
      ∧ NeverFollowedBy Event.isFailedRecv Event.isRecv (main opts w).trace :=
  ⟨main_nfb _ _ opts w (fun e he => (lifecycle_not_transfer e he).2.2.2.2.1)
      (fun e he => (lifecycle_not_transfer e he).2.1) (transfer_no_retry w _ _).1,
    main_nfb _ _ opts w (fun e he => (lifecycle_not_transfer e he).2.2.2.2.2)
      (fun e he => (lifecycle_not_transfer e he).2.2.1) (transfer_no_retry w _ _).2⟩


/-- C3, the failing run: for `zmqcat -t sub -e tcp://127.0.0.1:5000` with
`hello` on standard input the socket type is `ZMQ_PUB`, the program issues the
send call with `hello`, and it issues no receive. -/
theorem main_sub_sends :
    (parseOptions subOpts).type = ZMQ_PUB
      ∧ (main subOpts (World.allOk hello [.frame [33] false])).trace =
        [.zmq_init true, .zmq_socket ZMQ_PUB true, .zmq_connect "tcp://127.0.0.1:5000" true,
          .fread hello, .zmq_msg_init_size 5 true, .memcpy 0 stack_buffer 5,
          .zmq_msg_send hello true, .zmq_close true, .zmq_term true]
      ∧ sent (main subOpts (World.allOk hello [.frame [33] false])).trace = [(hello, true)]
      ∧ received (main subOpts (World.allOk hello [.frame [33] false])).trace = [] := by
  have hp : parseOptions subOpts = ⟨ZMQ_PUB, some "tcp://127.0.0.1:5000", false, false⟩ := by
    decide
  have ht : (main subOpts (World.allOk hello [.frame [33] false])).trace =
      [.zmq_init true, .zmq_socket ZMQ_PUB true, .zmq_connect "tcp://127.0.0.1:5000" true,
        .fread hello, .zmq_msg_init_size 5 true, .memcpy 0 stack_buffer 5,
        .zmq_msg_send hello true, .zmq_close true, .zmq_term true] := by
    rw [main_attached subOpts _ "tcp://127.0.0.1:5000" (by rw [hp]) rfl rfl (by rw [hp]; rfl), hp]
    simp [World.allOk, transfer, zmqcat_recv, zmqcat_send_trace, readLoop_short, hello,
      SEND_BUFFER_SIZE, copyLoop, dealloc, memcpy, stack_buffer]
  refine ⟨by rw [hp], ht, ?_, ?_⟩
  · rw [ht]; decide
  · rw [ht]; decide


/-- C5, as stated, fails: in the run of `zmqcat -e tcp://127.0.0.1:5000` in
which `zmq_msg_send` fails and every other call succeeds, a transport
operation (the send) has failed and the exit status is 0. -/
theorem main_exit_zero_after_failed_send :
    (main pushOpts sendFails).trace =
        [.zmq_init true, .zmq_socket ZMQ_PUSH true, .zmq_connect "tcp://127.0.0.1:5000" true,
          .fread [], .zmq_msg_init_size 0 true, .memcpy 0 stack_buffer 0,
          .zmq_msg_send [] false, .fprintf_stderr .error, .zmq_close true, .zmq_term true]
      ∧ (∃ e ∈ (main pushOpts sendFails).trace, e.isTransportFailure = true)
      ∧ (main pushOpts sendFails).status = 0 := by
  have hp : parseOptions pushOpts = ⟨ZMQ_PUSH, some "tcp://127.0.0.1:5000", false, false⟩ := by
    decide
  have ht : (main pushOpts sendFails).trace =
      [.zmq_init true, .zmq_socket ZMQ_PUSH true, .zmq_connect "tcp://127.0.0.1:5000" true,
        .fread [], .zmq_msg_init_size 0 true, .memcpy 0 stack_buffer 0,
        .zmq_msg_send [] false, .fprintf_stderr .error, .zmq_close true, .zmq_term true] := by
    rw [main_attached pushOpts _ "tcp://127.0.0.1:5000" (by rw [hp]) rfl rfl (by rw [hp]; rfl), hp]
    simp [sendFails, World.allOk, transfer, zmqcat_recv, zmqcat_send_trace, readLoop_short,
      SEND_BUFFER_SIZE, copyLoop, dealloc, memcpy, stack_buffer]
  refine ⟨ht, ⟨.zmq_msg_send [] false, by rw [ht]; decide, rfl⟩, by decide⟩

/-- C5, amended: when no endpoint was given the status is 254 and no call into
the transport library has been made.  When an endpoint was given, the status
is 1 exactly when one of context creation, socket creation, bind or connect,
close and terminate has failed, and 0 exactly when none of them has; a failed
send or receive does not change the status. -/
theorem main_exit_status (opts : List GetoptResult) (w : World) :
    ((parseOptions opts).endpoint = none →
        (main opts w).status = 254 ∧ ∀ e ∈ (main opts w).trace, e.isTransportCall = false)
      ∧ ((parseOptions opts).endpoint ≠ none →
        ((main opts w).status = 1 ↔ ∃ e ∈ (main opts w).trace, e.isLifecycleFailure = true)
          ∧ ((main opts w).status = 0
              ↔ ∀ e ∈ (main opts w).trace, e.isLifecycleFailure = false)) := by
  constructor
  · intro h
    rw [main_usage opts w h]
    exact ⟨rfl, by decide⟩
  · intro h
    obtain ⟨endpoint, he⟩ := Option.ne_none_iff_exists'.1 h
    have hany : ∀ l : List Event, (∃ e ∈ l, e.isLifecycleFailure = true)
        ↔ l.any Event.isLifecycleFailure = true := fun l => by simp
    have hall : ∀ l : List Event, (∀ e ∈ l, e.isLifecycleFailure = false)
        ↔ l.any Event.isLifecycleFailure = false := fun l => by simp
    have hT : (transfer w (parseOptions opts).type (parseOptions opts).verbose).any
        Event.isLifecycleFailure = false := by
      rw [← hall]; exact transfer_no_lifecycle_failure w _ _
    rw [hany, hall]
    cases h0 : w.zmq_init_ok with
    | false => rw [main_init_failed opts w endpoint he h0]; decide
    | true =>
      cases h1 : w.zmq_socket_ok with
      | false =>
        rw [main_socket_failed opts w endpoint he h0 h1]
        simp [Event.isLifecycleFailure]
      | true =>
        cases h2 : (if (parseOptions opts).bind then w.zmq_bind_ok else w.zmq_connect_ok) with
        | false =>
          rw [main_attach_failed opts w endpoint he h0 h1 h2]
          cases (parseOptions opts).bind <;> simp [Event.isLifecycleFailure]
        | true =>
          rw [main_attached opts w endpoint he h0 h1 h2]
          simp only [List.any_append, hT]
          cases (parseOptions opts).bind <;> cases (parseOptions opts).verbose <;>
            cases w.zmq_close_ok <;> cases w.zmq_term_ok <;>
            simp [Event.isLifecycleFailure]

/-- C5, witness: a run without `-e`, and the run of
`zmqcat -e tcp://127.0.0.1:5000` in which the send fails. -/
theorem main_exit_status_witness :
    ((main noEndpointOpts sendFails).status = 254
        ∧ ∀ e ∈ (main noEndpointOpts sendFails).trace, e.isTransportCall = false)
      ∧ ((main pushOpts sendFails).status = 1
          ↔ ∃ e ∈ (main pushOpts sendFails).trace, e.isLifecycleFailure = true)
      ∧ ((main pushOpts sendFails).status = 0
          ↔ ∀ e ∈ (main pushOpts sendFails).trace, e.isLifecycleFailure = false) :=
  ⟨(main_exit_status noEndpointOpts sendFails).1 (by decide),
    (main_exit_status pushOpts sendFails).2 (by decide)⟩

/-- C6, as stated, fails in both directions of an exchange: in the run of
`zmqcat -t req -e tcp://127.0.0.1:5000` in which `zmq_msg_send` fails, the
receive is still issued after the failed send; and in the run of
`zmqcat -t REP -e tcp://127.0.0.1:5000 -b` in which the first receive fails,
standard input is still read and the send is still issued afterwards. -/
theorem main_continues_after_failure :
    (main reqOpts sendFails).trace =
        [.zmq_init true, .zmq_socket ZMQ_REQ true, .zmq_connect "tcp://127.0.0.1:5000" true,
          .fread [], .zmq_msg_init_size 0 true, .memcpy 0 stack_buffer 0,
          .zmq_msg_send [] false, .fprintf_stderr .error,
          .zmq_msg_init true, .zmq_msg_recv (some hello), .zmq_getsockopt false, .fwrite hello,
          .zmq_close true, .zmq_term true]
      ∧ ¬ NeverFollowedBy (fun e => e.isFailedSend || e.isFailedRecv)
          (fun e => e.isSend || e.isRecv) (main reqOpts sendFails).trace
      ∧ (main repOpts recvFails).trace =
        [.zmq_init true, .zmq_socket ZMQ_REP true, .zmq_bind "tcp://127.0.0.1:5000" true,
          .zmq_msg_init true, .zmq_msg_recv none, .fprintf_stderr .error,
          .fread hello, .zmq_msg_init_size 5 true, .memcpy 0 stack_buffer 5,
          .zmq_msg_send hello true, .zmq_close true, .zmq_term true]
      ∧ ¬ NeverFollowedBy (fun e => e.isFailedSend || e.isFailedRecv)
          (fun e => e.isSend || e.isRecv) (main repOpts recvFails).trace := by
  have hp1 : parseOptions reqOpts = ⟨ZMQ_REQ, some "tcp://127.0.0.1:5000", false, false⟩ := by
    decide
  have hp2 : parseOptions repOpts = ⟨ZMQ_REP, some "tcp://127.0.0.1:5000", true, false⟩ := by
    decide
  have ht1 : (main reqOpts sendFails).trace =
      [.zmq_init true, .zmq_socket ZMQ_REQ true, .zmq_connect "tcp://127.0.0.1:5000" true,
        .fread [], .zmq_msg_init_size 0 true, .memcpy 0 stack_buffer 0,
        .zmq_msg_send [] false, .fprintf_stderr .error,
        .zmq_msg_init true, .zmq_msg_recv (some hello), .zmq_getsockopt false, .fwrite hello,
        .zmq_close true, .zmq_term true] := by
    rw [main_attached reqOpts _ "tcp://127.0.0.1:5000" (by rw [hp1]) rfl rfl (by rw [hp1]; rfl),
      hp1]
    simp [sendFails, World.allOk, transfer, zmqcat_recv, recvLoop, zmqcat_send_trace,
      readLoop_short, SEND_BUFFER_SIZE, copyLoop, dealloc, memcpy, stack_buffer]
  have ht2 : (main repOpts recvFails).trace =
      [.zmq_init true, .zmq_socket ZMQ_REP true, .zmq_bind "tcp://127.0.0.1:5000" true,
        .zmq_msg_init true, .zmq_msg_recv none, .fprintf_stderr .error,
        .fread hello, .zmq_msg_init_size 5 true, .memcpy 0 stack_buffer 5,
        .zmq_msg_send hello true, .zmq_close true, .zmq_term true] := by
    rw [main_attached repOpts _ "tcp://127.0.0.1:5000" (by rw [hp2]) rfl rfl (by rw [hp2]; rfl),
      hp2]
    simp [recvFails, World.allOk, transfer, zmqcat_recv, recvLoop, zmqcat_send_trace,
      readLoop_short, hello, SEND_BUFFER_SIZE, copyLoop, dealloc, memcpy, stack_buffer]
  refine ⟨ht1, ?_, ht2, ?_⟩
  · rw [ht1]; decide
  · rw [ht2]; decide

end Zmqcat
